import Mathlib

/-!
Shallow embedding of `app/api/routes/resource_modification.py` from the
`resources_api` repository: the resource partial-update engine
(`update_resource`), the vote ledger (`change_votes` / `update_votes`) and the
click counter (`add_click`), together with the datastore state they mutate.

Languages and categories are identified by their natural key (their unique
`name`), so a tag entity is represented by its name string.  Machine state is
a `Store` record; each route returns a `Response` together with the store as
persisted after the request (operations that do not reach `db.session.commit()`
return the store unchanged, matching the session rollback at request teardown).
-/

namespace ResourcesApi

/-- A row of the `resource` table.  Counters are Python ints, embedded as `Int`. -/
structure Resource where
  id : Nat
  name : String
  url : String
  free : Bool
  notes : Option String
  languages : List String
  category : String
  upvotes : Int
  downvotes : Int
  times_clicked : Int
  deriving Repr, DecidableEq

/-- A row of the `vote_information` table; composite key `(voter_apikey, resource_id)`.
`current_direction` is the string `"upvote"` or `"downvote"`, or `NULL` after a
toggle-off. -/
structure VoteInformation where
  voter_apikey : String
  resource_id : Nat
  current_direction : Option String
  deriving Repr, DecidableEq

/-- The persisted datastore: resource rows, language entities (by unique name),
category entities (by unique name) and the vote ledger. -/
structure Store where
  resources : List Resource
  languages : List String
  categories : List String
  votes : List VoteInformation
  deriving Repr, DecidableEq

/-- Outcome of a route: a serialized resource on success, the `redirect('/404')`
for a missing resource or bad vote direction, or a 500-class error payload. -/
inductive Response where
  | ok (r : Resource)
  | redirect404
  | error500
  deriving Repr, DecidableEq

/-- The validated partial-update document.  For each key, `none` means the key
is absent from the JSON object, `some none` means it is present with value
`null`, `some (some v)` means it is present with value `v`. -/
structure UpdateJson where
  languages : Option (Option (List String)) := none
  category : Option (Option String) := none
  name : Option (Option String) := none
  url : Option (Option String) := none
  free : Option (Option Bool) := none
  notes : Option (Option String) := none
  deriving Repr, DecidableEq

/-- The partial document pushed to the Algolia index: `objectID` plus exactly
the staged fields. -/
structure IndexObject where
  objectID : Nat
  languages : Option (List String) := none
  category : Option String := none
  name : Option String := none
  url : Option String := none
  free : Option Bool := none
  notes : Option (Option String) := none
  deriving Repr, DecidableEq

/-- `json.get(k)`: absent and null are both `None` in Python. -/
def jGet (field : Option (Option α)) : Option α := field.getD none

/-- Python truthiness of `json.get(k)` for a string-valued key: `None` (absent or
null) and the empty string are falsy. -/
def truthyStr (field : Option (Option String)) : Option String :=
  match jGet field with
  | none => none
  | some s => if s.isEmpty then none else some s

/-- Modelled from the spec: `ensure_bool` (in the helpers module, not under
`src/`) is a permissive boolean parser mapping truthy/falsy forms of the
present value to a boolean; a `null` value is a falsy form. -/
def ensure_bool : Option Bool → Bool
  | none => false
  | some b => b

/-- Names of languages referenced by at least one resource (the full scan of
`get_unique_resource_languages_as_strings`). -/
def usedLanguages (resources : List Resource) : List String :=
  (resources.map (·.languages)).flatten

/-- Names of categories referenced by at least one resource (the full scan of
`get_unique_resource_categories_as_strings`). -/
def usedCategories (resources : List Resource) : List String :=
  resources.map (·.category)

/-- Replace the row with primary key `rid` by `r'` (the in-session mutation of
the queried resource object, visible to later full scans and persisted at
commit). -/
def replaceResource (resources : List Resource) (rid : Nat) (r' : Resource) : List Resource :=
  resources.map (fun x => if x.id == rid then r' else x)

/-- Modelled from the spec: the Tag Reconciler (`get_attributes`, in the
helpers module, not under `src/`) resolves requested tag names to canonical
entities, reusing existing rows by natural key and creating rows for unseen
names.  With names as natural keys, resolution is the identity on names and
creation appends the unseen names to the entity list. -/
def insertNew (existing : List String) (names : List String) : List String :=
  existing ++ names.filter (fun n => !existing.contains n)

/-- State threaded through the field-application sequence of `update_resource`:
the queried resource object, the session's staged store, and the Algolia
`index_object` under construction. -/
abbrev UpdateState := Resource × Store × IndexObject

/-- Lines 60-67: `if json.get('languages') is not None:` — replace the
resource's languages, stage the serialized names on the index object, then
delete every old language entity whose name the full rescan no longer finds. -/
def applyLanguages (json : UpdateJson) (rid : Nat) : UpdateState → UpdateState
  | (r, s, p) =>
    match jGet json.languages with
    | none => (r, s, p)
    | some langs =>
      let old_languages := r.languages
      let r' := { r with languages := langs }
      let resources' := replaceResource s.resources rid r'
      let used := usedLanguages resources'
      let languages' := (insertNew s.languages langs).filter
        (fun n => !(old_languages.contains n && !used.contains n))
      (r', { s with resources := resources', languages := languages' },
        { p with languages := some langs })

/-- Lines 68-74: `if json.get('category'):` — replace the category, stage its
name, then delete the old category entity if the full rescan no longer finds it. -/
def applyCategory (json : UpdateJson) (rid : Nat) : UpdateState → UpdateState
  | (r, s, p) =>
    match truthyStr json.category with
    | none => (r, s, p)
    | some categ =>
      let old_category := r.category
      let r' := { r with category := categ }
      let resources' := replaceResource s.resources rid r'
      let usedCats := usedCategories resources'
      let categories' := (insertNew s.categories [categ]).filter
        (fun n => !(n == old_category && !usedCats.contains n))
      (r', { s with resources := resources', categories := categories' },
        { p with category := some categ })

/-- Lines 75-77: `if json.get('name'):`. -/
def applyName (json : UpdateJson) (rid : Nat) : UpdateState → UpdateState
  | (r, s, p) =>
    match truthyStr json.name with
    | none => (r, s, p)
    | some n =>
      let r' := { r with name := n }
      (r', { s with resources := replaceResource s.resources rid r' },
        { p with name := some n })

/-- Lines 78-80: `if json.get('url'):`. -/
def applyUrl (json : UpdateJson) (rid : Nat) : UpdateState → UpdateState
  | (r, s, p) =>
    match truthyStr json.url with
    | none => (r, s, p)
    | some u =>
      let r' := { r with url := u }
      (r', { s with resources := replaceResource s.resources rid r' },
        { p with url := some u })

/-- Lines 81-84: `if 'free' in json:` — applied on key presence alone, the
value being coerced through `ensure_bool`. -/
def applyFree (json : UpdateJson) (rid : Nat) : UpdateState → UpdateState
  | (r, s, p) =>
    match json.free with
    | none => (r, s, p)
    | some v =>
      let free := ensure_bool v
      let r' := { r with free := free }
      (r', { s with resources := replaceResource s.resources rid r' },
        { p with free := some free })

/-- Lines 85-87: `if 'notes' in json:` — applied on key presence alone, the
value (possibly `null`) stored as-is. -/
def applyNotes (json : UpdateJson) (rid : Nat) : UpdateState → UpdateState
  | (r, s, p) =>
    match json.notes with
    | none => (r, s, p)
    | some v =>
      let r' := { r with notes := v }
      (r', { s with resources := replaceResource s.resources rid r' },
        { p with notes := some v })

/-- Lines 75-87: the scalar field applications after the category branch. -/
def chainAfterCategory (json : UpdateJson) (id : Nat) (t : UpdateState) : UpdateState :=
  applyNotes json id (applyFree json id (applyUrl json id (applyName json id t)))

/-- Lines 68-87: the applications after the languages branch. -/
def chainAfterLanguages (json : UpdateJson) (id : Nat) (t : UpdateState) : UpdateState :=
  chainAfterCategory json id (applyCategory json id t)

/-- The field-application sequence of lines 60-87 in source order. -/
def updateChain (json : UpdateJson) (id : Nat) (t : UpdateState) : UpdateState :=
  chainAfterLanguages json id (applyLanguages json id t)

/-- `update_resource(id, json, db)` (lines 36-116).  `flaskEnv` is
`environ.get("FLASK_ENV")`; `algoliaFails` says whether
`index.partial_update_object` raises one of the two recognized Algolia
exceptions.  Returns the response, the store as persisted after the request
(unchanged unless `db.session.commit()` is reached), and the index patch that
was pushed (`none` when the synchronizer is never invoked). -/
def update_resource (id : Nat) (json : UpdateJson) (flaskEnv : Option String)
    (algoliaFails : Bool) (store : Store) : Response × Store × Option IndexObject :=
  match store.resources.find? (fun r => r.id == id) with
  | none => (Response.redirect404, store, none)
  | some resource =>
    let t := updateChain json id (resource, store, { objectID := id })
    if algoliaFails && !(flaskEnv == some "development") then
      (Response.error500, store, some t.2.2)
    else
      (Response.ok t.1, t.2.1, some t.2.2)

/-- `getattr(resource, vote_direction_attribute)` for the two counter columns. -/
def getVoteAttr (r : Resource) (attr : String) : Int :=
  if attr == "upvotes" then r.upvotes else r.downvotes

/-- `setattr(resource, vote_direction_attribute, v)` for the two counter columns. -/
def setVoteAttr (r : Resource) (attr : String) (v : Int) : Resource :=
  if attr == "upvotes" then { r with upvotes := v } else { r with downvotes := v }

/-- `VoteInformation.query.get(dict voter_apikey apikey, resource_id rid)`. -/
def findVote (votes : List VoteInformation) (apikey : String) (rid : Nat) :
    Option VoteInformation :=
  votes.find? (fun v => v.voter_apikey == apikey && v.resource_id == rid)

/-- The in-session mutation of the queried ledger row, persisted at commit. -/
def replaceVote (votes : List VoteInformation) (apikey : String) (rid : Nat)
    (w : VoteInformation) : List VoteInformation :=
  votes.map (fun v => if v.voter_apikey == apikey && v.resource_id == rid then w else v)

/-- `update_votes(id, vote_direction_attribute)` (lines 136-179), called with
`"upvotes"` or `"downvotes"`.  `api_key` is `g.auth_key.apikey`. -/
def update_votes (id : Nat) (vote_direction_attribute : String) (api_key : String)
    (store : Store) : Response × Store :=
  match store.resources.find? (fun r => r.id == id) with
  | none => (Response.redirect404, store)
  | some resource =>
    let initial_count := getVoteAttr resource vote_direction_attribute
    let vote_direction := vote_direction_attribute.dropRight 1
    let opposite_direction_attribute :=
      if vote_direction_attribute == "upvotes" then "downvotes" else "upvotes"
    let opposite_direction := opposite_direction_attribute.dropRight 1
    let opposite_count := getVoteAttr resource opposite_direction_attribute
    match findVote store.votes api_key id with
    | none =>
      let new_vote_info : VoteInformation :=
        { voter_apikey := api_key, resource_id := resource.id,
          current_direction := some vote_direction }
      let r' := setVoteAttr resource vote_direction_attribute (initial_count + 1)
      (Response.ok r',
        { store with resources := replaceResource store.resources id r',
                     votes := store.votes ++ [new_vote_info] })
    | some vote_info =>
      if vote_info.current_direction == some vote_direction then
        let r' := setVoteAttr resource vote_direction_attribute (initial_count - 1)
        let vi' := { vote_info with current_direction := none }
        (Response.ok r',
          { store with resources := replaceResource store.resources id r',
                       votes := replaceVote store.votes api_key id vi' })
      else
        let r1 := if vote_info.current_direction == some opposite_direction
          then setVoteAttr resource opposite_direction_attribute (opposite_count - 1)
          else resource
        let r' := setVoteAttr r1 vote_direction_attribute (initial_count + 1)
        let vi' := { vote_info with current_direction := some vote_direction }
        (Response.ok r',
          { store with resources := replaceResource store.resources id r',
                       votes := replaceVote store.votes api_key id vi' })

/-- `change_votes(id, vote_direction)` (lines 123-125): dispatch to
`update_votes` with the pluralized attribute, or redirect to `/404`. -/
def change_votes (id : Nat) (vote_direction : String) (api_key : String)
    (store : Store) : Response × Store :=
  if vote_direction == "upvote" || vote_direction == "downvote" then
    update_votes id (vote_direction ++ "s") api_key store
  else (Response.redirect404, store)

/-- `add_click(id)` (lines 182-195).  `auth_key` is `g.auth_key`'s key when an
API key was supplied, `none` otherwise; it is used only for serialization. -/
def add_click (id : Nat) (auth_key : Option String) (store : Store) : Response × Store :=
  match store.resources.find? (fun r => r.id == id) with
  | none => (Response.redirect404, store)
  | some resource =>
    let r' := { resource with times_clicked := resource.times_clicked + 1 }
    (Response.ok r', { store with resources := replaceResource store.resources id r' })

/-- `add_click` iterated `n` times (sequential clicks). -/
def iterClick (id : Nat) (auth_key : Option String) : Nat → Store → Store
  | 0, s => s
  | n + 1, s => iterClick id auth_key n (add_click id auth_key s).2

/-- Ledger rows for resource `rid` currently in direction `dir`. -/
def countDirection (votes : List VoteInformation) (rid : Nat) (dir : String) : Nat :=
  votes.countP (fun v => v.resource_id == rid && v.current_direction == some dir)

/-- The spec's counter invariant: each resource's `upvotes`/`downvotes` column
equals the number of ledger rows for it in that direction. -/
def CountersMatchLedger (store : Store) : Prop :=
  ∀ r ∈ store.resources,
    r.upvotes = (countDirection store.votes r.id "upvote" : Int) ∧
    r.downvotes = (countDirection store.votes r.id "downvote" : Int)

/-- Primary-key uniqueness, enforced by the database schema: resource ids are
pairwise distinct and ledger rows have pairwise distinct composite keys. -/
def UniqueKeys (store : Store) : Prop :=
  store.resources.Pairwise (fun a b => a.id ≠ b.id) ∧
  store.votes.Pairwise
    (fun a b => ¬(a.voter_apikey = b.voter_apikey ∧ a.resource_id = b.resource_id))

instance (store : Store) : Decidable (CountersMatchLedger store) := by
  unfold CountersMatchLedger; infer_instance

instance decPairwise {α : Type _} {R : α → α → Prop} [DecidableRel R] :
    (l : List α) → Decidable (l.Pairwise R)
  | [] => Decidable.isTrue List.Pairwise.nil
  | a :: l =>
    have : Decidable (l.Pairwise R) := decPairwise l
    decidable_of_iff ((∀ a' ∈ l, R a a') ∧ l.Pairwise R) List.pairwise_cons.symm

instance (store : Store) : Decidable (UniqueKeys store) := by
  unfold UniqueKeys; infer_instance

/-- The counter of resource `rid` in direction `dir` (`"upvote"`/`"downvote"`),
read back from a store. -/
def counterOf (store : Store) (rid : Nat) (dir : String) : Int :=
  match store.resources.find? (fun r => r.id == rid) with
  | none => 0
  | some r => if dir == "upvote" then r.upvotes else r.downvotes

/-- Every apply-step either leaves the threaded state alone or swaps the
threaded resource for a field-update of it (same id and counters) and stages
the swap in the session's resource list, never touching the ledger. -/
def StepShape (rid : Nat) (t t' : UpdateState) : Prop :=
  t' = t ∨
  (t'.1.id = t.1.id ∧ t'.1.upvotes = t.1.upvotes ∧ t'.1.downvotes = t.1.downvotes ∧
   t'.1.times_clicked = t.1.times_clicked ∧
   t'.2.1.resources = replaceResource t.2.1.resources rid t'.1 ∧
   t'.2.1.votes = t.2.1.votes)


/-- The walking facts needed across the apply-sequence: threaded resource has
the route's id and sits in the session list, the ledger is untouched, all
session rows with the route's id are the threaded resource, and every session
row descends from a base row with the same id and counters. -/
def ChainOk (rid : Nat) (base : Store) (t : UpdateState) : Prop :=
  t.1.id = rid ∧
  t.1 ∈ t.2.1.resources ∧
  t.2.1.votes = base.votes ∧
  (∀ x ∈ t.2.1.resources, x.id = rid → x = t.1) ∧
  (∀ x ∈ t.2.1.resources, ∃ y ∈ base.resources,
    x.id = y.id ∧ x.upvotes = y.upvotes ∧ x.downvotes = y.downvotes)


/-- The opposite vote direction. -/
def opp (d : String) : String := if d = "upvote" then "downvote" else "upvote"

/-- Add `δ` to the counter of direction `d`. -/
def bumpCounter (r : Resource) (d : String) (δ : Int) : Resource :=
  if d = "upvote" then { r with upvotes := r.upvotes + δ }
  else { r with downvotes := r.downvotes + δ }


/-- The threaded resource carries the route's id, sits in the session list,
and is the unique session row with that id. -/
def Synced (rid : Nat) (t : UpdateState) : Prop :=
  t.1.id = rid ∧ t.1 ∈ t.2.1.resources ∧ ∀ x ∈ t.2.1.resources, x.id = rid → x = t.1


/-! ### Sample data for witnesses -/

def sampleResource : Resource :=
  { id := 1, name := "Foo", url := "http://x", free := true, notes := none,
    languages := ["Python"], category := "books", upvotes := 0, downvotes := 0,
    times_clicked := 0 }

def sampleStore : Store :=
  { resources := [sampleResource], languages := ["Python"],
    categories := ["books"], votes := [] }


/-! ### Generic list lemmas about keyed replacement -/

theorem map_ite_id {α : Type _} {k : α → Bool} {w : α} :
    ∀ {l : List α}, (∀ x ∈ l, k x = false) →
      (l.map fun x => if k x then w else x) = l
  | [], _ => rfl
  | a :: t, h => by
    have ha := h a (List.mem_cons_self a t)
    have ht := map_ite_id (w := w) (l := t) (fun x hx => h x (List.mem_cons_of_mem a hx))
    simp [ha, ht]

theorem countP_map_ite {α : Type _} {k q : α → Bool} {w : α} :
    ∀ {l : List α} {v : α}, l.find? k = some v → l.countP k ≤ 1 →
      (l.map fun x => if k x then w else x).countP q + (if q v then 1 else 0)
        = l.countP q + (if q w then 1 else 0)
  | [], v, hf, _ => by simp at hf
  | a :: t, v, hf, hc => by
    by_cases ha : k a = true
    · rw [List.find?_cons_of_pos _ ha] at hf
      obtain rfl : a = v := by injection hf
      have h1 : t.countP k = 0 := by
        rw [List.countP_cons, if_pos ha] at hc
        omega
      have h0 : ∀ x ∈ t, k x = false := by
        intro x hx
        simpa using List.countP_eq_zero.mp h1 x hx
      rw [List.map_cons, if_pos ha, map_ite_id h0]
      simp only [List.countP_cons]
      by_cases hqw : q w = true <;> by_cases hqa : q a = true <;>
        simp [hqa, hqw] <;> omega
    · rw [List.find?_cons_of_neg _ ha] at hf
      have hc' : t.countP k ≤ 1 := by
        rw [List.countP_cons, if_neg ha] at hc
        omega
      have ih := countP_map_ite (l := t) (w := w) (q := q) hf hc'
      rw [List.map_cons, if_neg ha]
      simp only [List.countP_cons]
      omega

theorem countP_map_ite_congr {α : Type _} {k q : α → Bool} {w : α} :
    ∀ {l : List α}, (∀ x ∈ l, k x = true → q x = q w) →
      (l.map fun x => if k x then w else x).countP q = l.countP q
  | [], _ => rfl
  | a :: t, h => by
    have ih := countP_map_ite_congr (l := t) (w := w)
      (fun x hx => h x (List.mem_cons_of_mem a hx))
    by_cases ha : k a = true
    · have hqa := h a (List.mem_cons_self a t) ha
      simp [List.countP_cons, ha, ih, hqa]
    · simp [List.countP_cons, ha, ih]

theorem find?_map_ite {α : Type _} {k : α → Bool} {w : α} :
    ∀ {l : List α} {v : α}, l.find? k = some v → k w = true →
      (l.map fun x => if k x then w else x).find? k = some w
  | [], v, hf, _ => by simp at hf
  | a :: t, v, hf, hw => by
    by_cases ha : k a = true
    · rw [List.map_cons, if_pos ha, List.find?_cons_of_pos _ hw]
    · rw [List.find?_cons_of_neg _ ha] at hf
      rw [List.map_cons, if_neg ha, List.find?_cons_of_neg _ ha]
      exact find?_map_ite hf hw

theorem find?_append_none {α : Type _} {k : α → Bool} {w : α} {l : List α}
    (hf : l.find? k = none) (hw : k w = true) :
    (l ++ [w]).find? k = some w := by
  rw [List.find?_append, hf]
  simp [List.find?_cons_of_pos _ hw]

theorem countP_le_one_of_pairwise {α : Type _} {k : α → Bool} :
    ∀ {l : List α}, l.Pairwise (fun a b => ¬(k a = true ∧ k b = true)) →
      l.countP k ≤ 1
  | [], _ => by simp
  | a :: t, h => by
    rw [List.pairwise_cons] at h
    by_cases ha : k a = true
    · have h1 : t.countP k = 0 :=
        List.countP_eq_zero.mpr (fun x hx hkx => (h.1 x hx) ⟨ha, hkx⟩)
      simp [List.countP_cons, ha, h1]
    · have ih := countP_le_one_of_pairwise h.2
      simp [List.countP_cons, ha]
      omega

/-! ### Lemmas about `replaceResource` -/

theorem mem_replaceResource {l : List Resource} {rid : Nat} {r' x : Resource}
    (hx : x ∈ replaceResource l rid r') :
    x = r' ∨ (x ∈ l ∧ x.id ≠ rid) := by
  rcases List.mem_map.mp hx with ⟨y, hy, hxy⟩
  by_cases h : y.id = rid
  · left
    rw [← hxy, if_pos (by simpa using h)]
  · right
    rw [← hxy, if_neg (by simpa using h)]
    exact ⟨hy, h⟩

theorem mem_replaceResource_self {l : List Resource} {rid : Nat} {r r' : Resource}
    (hr : r ∈ l) (hid : r.id = rid) : r' ∈ replaceResource l rid r' :=
  List.mem_map.mpr ⟨r, hr, by simp [hid]⟩

theorem replaceResource_sync {l : List Resource} {rid : Nat} {r' x : Resource}
    (hx : x ∈ replaceResource l rid r') (hid : x.id = rid) : x = r' := by
  rcases mem_replaceResource hx with h | ⟨_, hne⟩
  · exact h
  · exact absurd hid hne

theorem usedLanguages_replaceResource {l : List Resource} {rid : Nat} {r' : Resource}
    (h : ∀ x ∈ l, x.id = rid → x.languages = r'.languages) :
    usedLanguages (replaceResource l rid r') = usedLanguages l := by
  unfold usedLanguages replaceResource
  rw [List.map_map]
  congr 1
  apply List.map_congr_left
  intro x hx
  by_cases hid : x.id = rid
  · simp [hid, h x hx hid]
  · simp [hid]

theorem usedCategories_replaceResource {l : List Resource} {rid : Nat} {r' : Resource}
    (h : ∀ x ∈ l, x.id = rid → x.category = r'.category) :
    usedCategories (replaceResource l rid r') = usedCategories l := by
  unfold usedCategories replaceResource
  rw [List.map_map]
  apply List.map_congr_left
  intro x hx
  by_cases hid : x.id = rid
  · simp [hid, h x hx hid]
  · simp [hid]

theorem mem_usedLanguages {resources : List Resource} {lang : String} :
    lang ∈ usedLanguages resources ↔ ∃ r ∈ resources, lang ∈ r.languages := by
  unfold usedLanguages
  rw [List.mem_flatten]
  constructor
  · rintro ⟨l, hl, hlang⟩
    rcases List.mem_map.mp hl with ⟨r, hr, rfl⟩
    exact ⟨r, hr, hlang⟩
  · rintro ⟨r, hr, hlang⟩
    exact ⟨r.languages, List.mem_map.mpr ⟨r, hr, rfl⟩, hlang⟩

theorem mem_usedCategories {resources : List Resource} {c : String} :
    c ∈ usedCategories resources ↔ ∃ r ∈ resources, r.category = c := by
  unfold usedCategories
  rw [List.mem_map]

theorem mem_insertNew {existing names : List String} {x : String} :
    x ∈ insertNew existing names ↔ x ∈ existing ∨ x ∈ names := by
  unfold insertNew
  rw [List.mem_append]
  constructor
  · rintro (h | h)
    · exact Or.inl h
    · exact Or.inr (List.mem_filter.mp h).1
  · rintro (h | h)
    · exact Or.inl h
    · by_cases he : x ∈ existing
      · exact Or.inl he
      · exact Or.inr (List.mem_filter.mpr ⟨h, by simpa using he⟩)

/-! ### Structure of one field-application step of `update_resource` -/

theorem applyLanguages_stepShape (json : UpdateJson) (rid : Nat) (t : UpdateState) :
    StepShape rid t (applyLanguages json rid t) := by
  obtain ⟨r, s, p⟩ := t
  unfold applyLanguages StepShape
  cases jGet json.languages with
  | none => exact Or.inl rfl
  | some langs => exact Or.inr ⟨rfl, rfl, rfl, rfl, rfl, rfl⟩

theorem applyCategory_stepShape (json : UpdateJson) (rid : Nat) (t : UpdateState) :
    StepShape rid t (applyCategory json rid t) := by
  obtain ⟨r, s, p⟩ := t
  unfold applyCategory StepShape
  cases truthyStr json.category with
  | none => exact Or.inl rfl
  | some c => exact Or.inr ⟨rfl, rfl, rfl, rfl, rfl, rfl⟩

theorem applyName_stepShape (json : UpdateJson) (rid : Nat) (t : UpdateState) :
    StepShape rid t (applyName json rid t) := by
  obtain ⟨r, s, p⟩ := t
  unfold applyName StepShape
  cases truthyStr json.name with
  | none => exact Or.inl rfl
  | some n => exact Or.inr ⟨rfl, rfl, rfl, rfl, rfl, rfl⟩

theorem applyUrl_stepShape (json : UpdateJson) (rid : Nat) (t : UpdateState) :
    StepShape rid t (applyUrl json rid t) := by
  obtain ⟨r, s, p⟩ := t
  unfold applyUrl StepShape
  cases truthyStr json.url with
  | none => exact Or.inl rfl
  | some u => exact Or.inr ⟨rfl, rfl, rfl, rfl, rfl, rfl⟩

theorem applyFree_stepShape (json : UpdateJson) (rid : Nat) (t : UpdateState) :
    StepShape rid t (applyFree json rid t) := by
  obtain ⟨r, s, p⟩ := t
  unfold applyFree StepShape
  cases json.free with
  | none => exact Or.inl rfl
  | some v => exact Or.inr ⟨rfl, rfl, rfl, rfl, rfl, rfl⟩

theorem applyNotes_stepShape (json : UpdateJson) (rid : Nat) (t : UpdateState) :
    StepShape rid t (applyNotes json rid t) := by
  obtain ⟨r, s, p⟩ := t
  unfold applyNotes StepShape
  cases json.notes with
  | none => exact Or.inl rfl
  | some v => exact Or.inr ⟨rfl, rfl, rfl, rfl, rfl, rfl⟩

theorem chainOk_step {rid : Nat} {base : Store} {t t' : UpdateState}
    (hs : StepShape rid t t') (h : ChainOk rid base t) : ChainOk rid base t' := by
  obtain ⟨hid, hmem, hvotes, hsync, hdesc⟩ := h
  rcases hs with rfl | ⟨hid', hup', hdn', _, hres', hvotes'⟩
  · exact ⟨hid, hmem, hvotes, hsync, hdesc⟩
  · refine ⟨hid' ▸ hid, ?_, hvotes' ▸ hvotes, ?_, ?_⟩
    · rw [hres']
      exact mem_replaceResource_self hmem hid
    · intro x hx hxid
      rw [hres'] at hx
      exact replaceResource_sync hx hxid
    · intro x hx
      rw [hres'] at hx
      rcases mem_replaceResource hx with rfl | ⟨hxmem, _⟩
      · rcases hdesc t.1 hmem with ⟨y, hy, h1, h2, h3⟩
        exact ⟨y, hy, by rw [hid', h1], by rw [hup', h2], by rw [hdn', h3]⟩
      · exact hdesc x hxmem

theorem eq_of_mem_of_find?_pairwise {rid : Nat} {r : Resource} :
    ∀ {l : List Resource}, l.Pairwise (fun a b => a.id ≠ b.id) →
      l.find? (fun x => x.id == rid) = some r →
      ∀ x ∈ l, x.id = rid → x = r
  | [], _, hf => by simp at hf
  | a :: t, hp, hf => by
    rw [List.pairwise_cons] at hp
    intro x hx hxid
    by_cases ha : a.id = rid
    · rw [List.find?_cons_of_pos _ (by simpa using ha)] at hf
      obtain rfl : a = r := by injection hf
      rcases List.mem_cons.mp hx with rfl | hxt
      · rfl
      · exact absurd (ha.trans hxid.symm) (hp.1 x hxt)
    · rw [List.find?_cons_of_neg _ (by simpa using ha)] at hf
      rcases List.mem_cons.mp hx with rfl | hxt
      · exact absurd hxid ha
      · exact eq_of_mem_of_find?_pairwise hp.2 hf x hxt hxid

theorem chainOk_start {rid : Nat} {store : Store} {r : Resource}
    (hr : store.resources.find? (fun x => x.id == rid) = some r)
    (hu : store.resources.Pairwise (fun a b => a.id ≠ b.id)) :
    ChainOk rid store (r, store, { objectID := rid }) := by
  have hmem := List.mem_of_find?_eq_some hr
  have hid : r.id = rid := by simpa using List.find?_some hr
  refine ⟨hid, hmem, rfl, ?_, ?_⟩
  · exact eq_of_mem_of_find?_pairwise hu hr
  · intro x hx
    exact ⟨x, hx, rfl, rfl, rfl⟩

/-! ### Characterization of `update_votes` -/

theorem change_votes_eq_update_votes {id : Nat} {d key : String} {store : Store}
    (hd : d = "upvote" ∨ d = "downvote") :
    change_votes id d key store = update_votes id (d ++ "s") key store := by
  rcases hd with rfl | rfl <;> rfl

/-- Full case analysis of `update_votes` on a found resource: the four
transitions of the vote state machine. -/
theorem update_votes_cases (id : Nat) (key d : String)
    (hd : d = "upvote" ∨ d = "downvote") (store : Store) (resource : Resource)
    (hr : store.resources.find? (fun r => r.id == id) = some resource) :
    (findVote store.votes key id = none →
      update_votes id (d ++ "s") key store =
        (Response.ok (bumpCounter resource d 1),
         { store with
             resources := replaceResource store.resources id (bumpCounter resource d 1),
             votes := store.votes ++
               [{ voter_apikey := key, resource_id := resource.id,
                  current_direction := some d }] })) ∧
    (∀ vi, findVote store.votes key id = some vi →
      (vi.current_direction = some d →
        update_votes id (d ++ "s") key store =
          (Response.ok (bumpCounter resource d (-1)),
           { store with
               resources := replaceResource store.resources id (bumpCounter resource d (-1)),
               votes := replaceVote store.votes key id
                 { vi with current_direction := none } })) ∧
      (vi.current_direction = some (opp d) →
        update_votes id (d ++ "s") key store =
          (Response.ok (bumpCounter (bumpCounter resource (opp d) (-1)) d 1),
           { store with
               resources := replaceResource store.resources id
                 (bumpCounter (bumpCounter resource (opp d) (-1)) d 1),
               votes := replaceVote store.votes key id
                 { vi with current_direction := some d } })) ∧
      (vi.current_direction ≠ some d → vi.current_direction ≠ some (opp d) →
        update_votes id (d ++ "s") key store =
          (Response.ok (bumpCounter resource d 1),
           { store with
               resources := replaceResource store.resources id (bumpCounter resource d 1),
               votes := replaceVote store.votes key id
                 { vi with current_direction := some d } }))) := by
  rcases hd with rfl | rfl
  · have ha : ("upvote" ++ "s") = "upvotes" := rfl
    have hop : opp "upvote" = "downvote" := rfl
    rw [ha, hop]
    unfold update_votes
    rw [hr]
    have hd1 : ("upvotes".dropRight 1) = "upvote" := rfl
    have hd2 : (("upvotes" : String) == "upvotes") = true := rfl
    have hd3 : ("downvotes".dropRight 1) = "downvote" := rfl
    simp only [hd1, hd2, if_true, hd3]
    refine ⟨?_, ?_⟩
    · intro hnone
      rw [hnone]
      simp [getVoteAttr, setVoteAttr, bumpCounter]
    · intro vi hvi
      rw [hvi]
      dsimp only
      refine ⟨?_, ?_, ?_⟩
      · intro hdir
        rw [if_pos (by simp [hdir])]
        simp [getVoteAttr, setVoteAttr, bumpCounter, Int.sub_eq_add_neg]
      · intro hdir
        rw [if_neg (by simp [hdir]), if_pos (by simp [hdir])]
        simp [getVoteAttr, setVoteAttr, bumpCounter, Int.sub_eq_add_neg]
      · intro hx1 hx2
        rw [if_neg (by simp [hx1]), if_neg (by simp [hx2])]
        simp [getVoteAttr, setVoteAttr, bumpCounter]
  · have ha : ("downvote" ++ "s") = "downvotes" := rfl
    have hop : opp "downvote" = "upvote" := rfl
    rw [ha, hop]
    unfold update_votes
    rw [hr]
    have hd1 : ("downvotes".dropRight 1) = "downvote" := rfl
    have hd2 : (("downvotes" : String) == "upvotes") = false := rfl
    have hd3 : ("upvotes".dropRight 1) = "upvote" := rfl
    simp only [hd1, hd2, if_false, Bool.false_eq_true, hd3]
    refine ⟨?_, ?_⟩
    · intro hnone
      rw [hnone]
      simp [getVoteAttr, setVoteAttr, bumpCounter]
    · intro vi hvi
      rw [hvi]
      dsimp only
      refine ⟨?_, ?_, ?_⟩
      · intro hdir
        rw [if_pos (by simp [hdir])]
        simp [getVoteAttr, setVoteAttr, bumpCounter, Int.sub_eq_add_neg]
      · intro hdir
        rw [if_neg (by simp [hdir]), if_pos (by simp [hdir])]
        simp [getVoteAttr, setVoteAttr, bumpCounter, Int.sub_eq_add_neg]
      · intro hx1 hx2
        rw [if_neg (by simp [hx1]), if_neg (by simp [hx2])]
        simp [getVoteAttr, setVoteAttr, bumpCounter]

theorem bumpCounter_id (r : Resource) (d : String) (δ : Int) :
    (bumpCounter r d δ).id = r.id := by
  unfold bumpCounter; split <;> rfl

theorem bumpCounter_up (r : Resource) (δ : Int) :
    bumpCounter r "upvote" δ = { r with upvotes := r.upvotes + δ } := by
  simp [bumpCounter]

theorem bumpCounter_down (r : Resource) (δ : Int) :
    bumpCounter r "downvote" δ = { r with downvotes := r.downvotes + δ } := by
  simp [bumpCounter]

/-! ### Counting lemmas for the vote ledger -/

theorem votes_countP_key_le_one {votes : List VoteInformation} {key : String} {id : Nat}
    (hp : votes.Pairwise
      (fun a b => ¬(a.voter_apikey = b.voter_apikey ∧ a.resource_id = b.resource_id))) :
    votes.countP (fun v => v.voter_apikey == key && v.resource_id == id) ≤ 1 := by
  apply countP_le_one_of_pairwise
  apply hp.imp
  intro a b hab hk
  obtain ⟨ha, hb⟩ := hk
  simp only [Bool.and_eq_true, beq_iff_eq] at ha hb
  exact hab ⟨ha.1.trans hb.1.symm, ha.2.trans hb.2.symm⟩

theorem countDirection_append (votes : List VoteInformation) (w : VoteInformation)
    (rid : Nat) (dir : String) :
    countDirection (votes ++ [w]) rid dir
      = countDirection votes rid dir
        + (if w.resource_id = rid ∧ w.current_direction = some dir then 1 else 0) := by
  unfold countDirection
  rw [List.countP_append]
  by_cases h1 : w.resource_id = rid <;> by_cases h2 : w.current_direction = some dir <;>
    simp [List.countP_cons, h1, h2]

theorem countDirection_replaceVote_main (votes : List VoteInformation) (key : String)
    (id : Nat) (vi vi' : VoteInformation) (dir : String)
    (hf : findVote votes key id = some vi)
    (hvr' : vi'.resource_id = id)
    (hc : votes.countP (fun v => v.voter_apikey == key && v.resource_id == id) ≤ 1) :
    (countDirection (replaceVote votes key id vi') id dir : Int)
      = countDirection votes id dir
        + (if vi'.current_direction = some dir then 1 else 0)
        - (if vi.current_direction = some dir then 1 else 0) := by
  unfold findVote at hf
  have hkvi := List.find?_some hf
  simp only [Bool.and_eq_true, beq_iff_eq] at hkvi
  have h := countP_map_ite (l := votes) (v := vi) (w := vi')
    (q := fun v => v.resource_id == id && v.current_direction == some dir) hf hc
  unfold countDirection replaceVote
  by_cases h1 : vi.current_direction = some dir <;>
    by_cases h2 : vi'.current_direction = some dir <;>
      simp [h1, h2, hkvi.2, hvr'] at h ⊢ <;> omega

theorem countDirection_replaceVote_ne (votes : List VoteInformation) (key : String)
    (id : Nat) (vi' : VoteInformation) (rid : Nat) (dir : String)
    (hvr' : vi'.resource_id = id) (hne : rid ≠ id) :
    countDirection (replaceVote votes key id vi') rid dir
      = countDirection votes rid dir := by
  unfold countDirection replaceVote
  apply countP_map_ite_congr
  intro v hv hkv
  simp only [Bool.and_eq_true, beq_iff_eq] at hkv
  have hid : (id == rid) = false := beq_eq_false_iff_ne.mpr (Ne.symm hne)
  simp [hkv.2, hvr', hid]

/-- If the replaced resource's counters match `votes'` and all other resources'
counts are untouched, the invariant holds for the committed store. -/
theorem counters_match_of_replace (store : Store) (id : Nat) (r' : Resource)
    (votes' : List VoteInformation)
    (hinv : CountersMatchLedger store)
    (hrid' : r'.id = id)
    (hup : r'.upvotes = (countDirection votes' id "upvote" : Int))
    (hdn : r'.downvotes = (countDirection votes' id "downvote" : Int))
    (hother : ∀ rid', rid' ≠ id → ∀ dir,
      countDirection votes' rid' dir = countDirection store.votes rid' dir) :
    CountersMatchLedger
      { store with resources := replaceResource store.resources id r', votes := votes' } := by
  intro x hx
  rcases mem_replaceResource hx with rfl | ⟨hxmem, hxid⟩
  · exact ⟨by rw [hrid']; exact hup, by rw [hrid']; exact hdn⟩
  · obtain ⟨h1, h2⟩ := hinv x hxmem
    constructor
    · show x.upvotes = (countDirection votes' x.id "upvote" : Int)
      rw [hother x.id hxid "upvote"]
      exact h1
    · show x.downvotes = (countDirection votes' x.id "downvote" : Int)
      rw [hother x.id hxid "downvote"]
      exact h2

theorem update_resource_none (id : Nat) (json : UpdateJson) (flaskEnv : Option String)
    (algoliaFails : Bool) (store : Store)
    (hr : store.resources.find? (fun r => r.id == id) = none) :
    update_resource id json flaskEnv algoliaFails store
      = (Response.redirect404, store, none) := by
  unfold update_resource
  rw [hr]

theorem update_resource_found (id : Nat) (json : UpdateJson) (flaskEnv : Option String)
    (algoliaFails : Bool) (store : Store) (resource : Resource)
    (hr : store.resources.find? (fun r => r.id == id) = some resource) :
    update_resource id json flaskEnv algoliaFails store
      = (let t := updateChain json id (resource, store, { objectID := id });
         if algoliaFails && !(flaskEnv == some "development") then
           (Response.error500, store, some t.2.2)
         else
           (Response.ok t.1, t.2.1, some t.2.2)) := by
  unfold update_resource
  rw [hr]

theorem chainOk_updateChain {json : UpdateJson} {rid : Nat} {base : Store}
    {t : UpdateState} (h : ChainOk rid base t) :
    ChainOk rid base (updateChain json rid t) :=
  chainOk_step (applyNotes_stepShape json rid _)
    (chainOk_step (applyFree_stepShape json rid _)
      (chainOk_step (applyUrl_stepShape json rid _)
        (chainOk_step (applyName_stepShape json rid _)
          (chainOk_step (applyCategory_stepShape json rid _)
            (chainOk_step (applyLanguages_stepShape json rid _) h)))))

theorem counters_of_chainOk {rid : Nat} {base : Store} {t : UpdateState}
    (h : ChainOk rid base t) (hinv : CountersMatchLedger base) :
    CountersMatchLedger t.2.1 := by
  intro x hx
  obtain ⟨_, _, hvotes, _, hdesc⟩ := h
  rcases hdesc x hx with ⟨y, hy, hid, hup, hdn⟩
  obtain ⟨h1, h2⟩ := hinv y hy
  rw [hvotes, hid, hup, hdn]
  exact ⟨h1, h2⟩

theorem update_resource_preserves_counters (id : Nat) (json : UpdateJson)
    (flaskEnv : Option String) (algoliaFails : Bool) (store : Store)
    (hu : store.resources.Pairwise (fun a b => a.id ≠ b.id))
    (hinv : CountersMatchLedger store) :
    CountersMatchLedger (update_resource id json flaskEnv algoliaFails store).2.1 := by
  cases hr : store.resources.find? (fun r => r.id == id) with
  | none =>
    rw [update_resource_none id json flaskEnv algoliaFails store hr]
    exact hinv
  | some resource =>
    rw [update_resource_found id json flaskEnv algoliaFails store resource hr]
    have hchain := @chainOk_updateChain json id store _ (chainOk_start hr hu)
    by_cases hfail : (algoliaFails && !(flaskEnv == some "development")) = true
    · rw [if_pos hfail]
      exact hinv
    · rw [if_neg hfail]
      exact counters_of_chainOk hchain hinv

theorem add_click_preserves_counters (id : Nat) (auth_key : Option String) (store : Store)
    (hinv : CountersMatchLedger store) :
    CountersMatchLedger (add_click id auth_key store).2 := by
  unfold add_click
  cases hr : store.resources.find? (fun r => r.id == id) with
  | none => exact hinv
  | some resource =>
    intro x hx
    rcases mem_replaceResource hx with rfl | ⟨hxmem, _⟩
    · exact hinv resource (List.mem_of_find?_eq_some hr)
    · exact hinv x hxmem

theorem update_votes_preserves_counters (id : Nat) (key d : String)
    (hd : d = "upvote" ∨ d = "downvote") (store : Store)
    (hwf : UniqueKeys store) (hinv : CountersMatchLedger store) :
    CountersMatchLedger (update_votes id (d ++ "s") key store).2 := by
  cases hr : store.resources.find? (fun r => r.id == id) with
  | none =>
    have he : update_votes id (d ++ "s") key store = (Response.redirect404, store) := by
      unfold update_votes
      rw [hr]
    rw [he]
    exact hinv
  | some resource =>
    have hmem := List.mem_of_find?_eq_some hr
    have hrid : resource.id = id := by simpa using List.find?_some hr
    have hkc := @votes_countP_key_le_one store.votes key id hwf.2
    obtain ⟨hup0, hdn0⟩ := hinv resource hmem
    rw [hrid] at hup0 hdn0
    obtain ⟨hC0, hCS⟩ := update_votes_cases id key d hd store resource hr
    cases hvi : findVote store.votes key id with
    | none =>
      rw [hC0 hvi]
      apply counters_match_of_replace store id _ _ hinv (by rw [bumpCounter_id, hrid])
      · rw [countDirection_append]
        rcases hd with rfl | rfl
        · rw [bumpCounter_up]
          simp [hrid]
          omega
        · rw [bumpCounter_down]
          simp [hrid]
          omega
      · rw [countDirection_append]
        rcases hd with rfl | rfl
        · rw [bumpCounter_up]
          simp [hrid]
          omega
        · rw [bumpCounter_down]
          simp [hrid]
          omega
      · intro rid' hne dir
        rw [countDirection_append]
        simp [hrid, Ne.symm hne]
    | some vi =>
      obtain ⟨hT, hF, hN⟩ := hCS vi hvi
      have hvir : vi.resource_id = id := by
        have := List.find?_some (by unfold findVote at hvi; exact hvi)
        simp only [Bool.and_eq_true, beq_iff_eq] at this
        exact this.2
      by_cases hcur : vi.current_direction = some d
      · -- toggle off
        rw [hT hcur]
        apply counters_match_of_replace store id _ _ hinv (by rw [bumpCounter_id, hrid])
        · rw [countDirection_replaceVote_main store.votes key id vi _ _ hvi (by simpa) hkc]
          rcases hd with rfl | rfl
          · rw [bumpCounter_up]
            simp [hcur]
            omega
          · rw [bumpCounter_down]
            simp [hcur]
            omega
        · rw [countDirection_replaceVote_main store.votes key id vi _ _ hvi (by simpa) hkc]
          rcases hd with rfl | rfl
          · rw [bumpCounter_up]
            simp [hcur]
            omega
          · rw [bumpCounter_down]
            simp [hcur]
            omega
        · intro rid' hne dir
          exact countDirection_replaceVote_ne store.votes key id _ rid' dir (by simpa) hne
      · by_cases hopp : vi.current_direction = some (opp d)
        · -- flip to the opposite direction
          rw [hF hopp]
          apply counters_match_of_replace store id _ _ hinv
            (by rw [bumpCounter_id, bumpCounter_id, hrid])
          · rw [countDirection_replaceVote_main store.votes key id vi _ _ hvi (by simpa) hkc]
            rcases hd with rfl | rfl
            · rw [show opp "upvote" = "downvote" from rfl] at hopp ⊢
              rw [bumpCounter_down, bumpCounter_up]
              simp [hcur, hopp]
              omega
            · rw [show opp "downvote" = "upvote" from rfl] at hopp ⊢
              rw [bumpCounter_up, bumpCounter_down]
              simp [hcur, hopp]
              omega
          · rw [countDirection_replaceVote_main store.votes key id vi _ _ hvi (by simpa) hkc]
            rcases hd with rfl | rfl
            · rw [show opp "upvote" = "downvote" from rfl] at hopp ⊢
              rw [bumpCounter_down, bumpCounter_up]
              simp [hcur, hopp]
              omega
            · rw [show opp "downvote" = "upvote" from rfl] at hopp ⊢
              rw [bumpCounter_up, bumpCounter_down]
              simp [hcur, hopp]
              omega
          · intro rid' hne dir
            exact countDirection_replaceVote_ne store.votes key id _ rid' dir (by simpa) hne
        · -- direction NULL (or unrecognized): plain increment
          rw [hN hcur hopp]
          apply counters_match_of_replace store id _ _ hinv (by rw [bumpCounter_id, hrid])
          · rw [countDirection_replaceVote_main store.votes key id vi _ _ hvi (by simpa) hkc]
            rcases hd with rfl | rfl
            · rw [bumpCounter_up]
              simp [hcur]
              omega
            · rw [show opp "downvote" = "upvote" from rfl] at hopp
              rw [bumpCounter_down]
              simp [hcur, hopp]
              omega
          · rw [countDirection_replaceVote_main store.votes key id vi _ _ hvi (by simpa) hkc]
            rcases hd with rfl | rfl
            · rw [show opp "upvote" = "downvote" from rfl] at hopp
              rw [bumpCounter_up]
              simp [hcur, hopp]
              omega
            · rw [bumpCounter_down]
              simp [hcur]
              omega
          · intro rid' hne dir
            exact countDirection_replaceVote_ne store.votes key id _ rid' dir (by simpa) hne

theorem update_resource_strict_fail (id : Nat) (json : UpdateJson)
    (flaskEnv : Option String) (store : Store) (r : Resource)
    (hr : store.resources.find? (fun x => x.id == id) = some r)
    (henv : flaskEnv ≠ some "development") :
    update_resource id json flaskEnv true store
      = (Response.error500, store,
         some (updateChain json id (r, store, { objectID := id })).2.2) := by
  rw [update_resource_found id json flaskEnv true store r hr]
  have hb : (true && !(flaskEnv == some "development")) = true := by
    simp [beq_eq_false_iff_ne]
    exact henv
  simp only [hb, if_true]

theorem update_resource_dev (id : Nat) (json : UpdateJson) (algoliaFails : Bool)
    (store : Store) (r : Resource)
    (hr : store.resources.find? (fun x => x.id == id) = some r) :
    update_resource id json (some "development") algoliaFails store
      = (Response.ok (updateChain json id (r, store, { objectID := id })).1,
         (updateChain json id (r, store, { objectID := id })).2.1,
         some (updateChain json id (r, store, { objectID := id })).2.2) := by
  rw [update_resource_found id json (some "development") algoliaFails store r hr]
  have hb : (algoliaFails && !((some "development" : Option String) == some "development"))
      = false := by simp
  simp only [hb, Bool.false_eq_true, if_false]

theorem update_resource_ok (id : Nat) (json : UpdateJson) (flaskEnv : Option String)
    (store : Store) (r : Resource)
    (hr : store.resources.find? (fun x => x.id == id) = some r) :
    update_resource id json flaskEnv false store
      = (Response.ok (updateChain json id (r, store, { objectID := id })).1,
         (updateChain json id (r, store, { objectID := id })).2.1,
         some (updateChain json id (r, store, { objectID := id })).2.2) := by
  rw [update_resource_found id json flaskEnv false store r hr]
  simp only [Bool.false_and, Bool.false_eq_true, if_false]

/-! ### Claims -/

/-- C2: starting from any state satisfying the counter invariant (with the
schema's primary-key uniqueness), every operation — vote cast, resource
update, click — preserves the invariant that each resource's `upvotes` and
`downvotes` columns equal the number of its ledger rows currently in that
direction. -/
theorem C2_counter_invariant_preserved (store : Store)
    (hwf : UniqueKeys store) (hinv : CountersMatchLedger store) :
    (∀ id d key, CountersMatchLedger (change_votes id d key store).2) ∧
    (∀ id json flaskEnv algoliaFails,
      CountersMatchLedger (update_resource id json flaskEnv algoliaFails store).2.1) ∧
    (∀ id auth_key, CountersMatchLedger (add_click id auth_key store).2) := by
  refine ⟨?_, ?_, ?_⟩
  · intro id d key
    by_cases hd : d = "upvote" ∨ d = "downvote"
    · rw [change_votes_eq_update_votes hd]
      exact update_votes_preserves_counters id key d hd store hwf hinv
    · push_neg at hd
      have hb : (d == "upvote" || d == "downvote") = false := by
        simp [beq_eq_false_iff_ne, hd.1, hd.2]
      unfold change_votes
      rw [hb]
      simpa using hinv
  · intro id json flaskEnv algoliaFails
    exact update_resource_preserves_counters id json flaskEnv algoliaFails store hwf.1 hinv
  · intro id auth_key
    exact add_click_preserves_counters id auth_key store hinv

theorem C2_witness :
    UniqueKeys sampleStore ∧ CountersMatchLedger sampleStore ∧
    CountersMatchLedger (change_votes 1 "upvote" "A" sampleStore).2 :=
  ⟨by decide, by decide,
    (C2_counter_invariant_preserved sampleStore (by decide) (by decide)).1 1 "upvote" "A"⟩

/-- C9: a vote request whose direction path parameter is anything but exactly
`"upvote"` or `"downvote"` is redirected to `/404` before reaching the ledger:
the store (counters and ledger rows) is returned unchanged, so the request is
rejected rather than silently succeeding. -/
theorem C9_invalid_direction_rejected (store : Store) (id : Nat) (key d : String)
    (hd : d ≠ "upvote" ∧ d ≠ "downvote") :
    change_votes id d key store = (Response.redirect404, store) := by
  unfold change_votes
  have hb : (d == "upvote" || d == "downvote") = false := by
    simp [beq_eq_false_iff_ne, hd.1, hd.2]
  rw [hb]
  simp

theorem C9_witness :
    ("sideways" ≠ "upvote" ∧ "sideways" ≠ "downvote") ∧
    change_votes 1 "sideways" "A" sampleStore = (Response.redirect404, sampleStore) :=
  ⟨⟨by decide, by decide⟩,
    C9_invalid_direction_rejected sampleStore 1 "A" "sideways" ⟨by decide, by decide⟩⟩

/-- C4: when the index synchronizer raises, strict mode (`FLASK_ENV` not
`development`) returns a 500-class error without committing — the persisted
store, hence every resource field and every Language/Category entity, is
unchanged — while development mode tolerates the failure and commits exactly
as on success. -/
theorem C4_sync_failure_policy (id : Nat) (json : UpdateJson)
    (flaskEnv : Option String) (store : Store) (r : Resource)
    (hr : store.resources.find? (fun x => x.id == id) = some r) :
    (flaskEnv ≠ some "development" →
      (update_resource id json flaskEnv true store).1 = Response.error500 ∧
      (update_resource id json flaskEnv true store).2.1 = store) ∧
    (update_resource id json (some "development") true store
      = update_resource id json (some "development") false store) := by
  constructor
  · intro henv
    rw [update_resource_strict_fail id json flaskEnv store r hr henv]
    exact ⟨rfl, rfl⟩
  · rw [update_resource_dev id json true store r hr,
        update_resource_dev id json false store r hr]

theorem C4_witness :
    ((none : Option String) ≠ some "development" →
      (update_resource 1 { name := some (some "X") } none true sampleStore).1
          = Response.error500 ∧
      (update_resource 1 { name := some (some "X") } none true sampleStore).2.1
          = sampleStore) ∧
    (update_resource 1 { name := some (some "X") } (some "development") true sampleStore
      = update_resource 1 { name := some (some "X") } (some "development") false sampleStore) :=
  C4_sync_failure_policy 1 { name := some (some "X") } none sampleStore sampleResource
    (by decide)

/-- C10: an update whose partial document selects no fields still invokes the
synchronizer with a patch holding only the `objectID`; in strict mode a
synchronizer failure therefore turns even this no-change update into a
500-class error with the store unchanged. -/
theorem C10_empty_update_still_syncs (id : Nat) (flaskEnv : Option String)
    (algoliaFails : Bool) (store : Store) (r : Resource)
    (hr : store.resources.find? (fun x => x.id == id) = some r) :
    (update_resource id {} flaskEnv algoliaFails store).2.2 = some { objectID := id } ∧
    (flaskEnv ≠ some "development" →
      (update_resource id {} flaskEnv true store).1 = Response.error500 ∧
      (update_resource id {} flaskEnv true store).2.1 = store) := by
  have hchain : updateChain {} id (r, store, { objectID := id })
      = (r, store, { objectID := id }) := rfl
  constructor
  · rw [update_resource_found id {} flaskEnv algoliaFails store r hr]
    by_cases hb : (algoliaFails && !(flaskEnv == some "development")) = true
    · simp only [hb, if_true, hchain]
    · simp only [eq_false_of_ne_true hb, Bool.false_eq_true, if_false, hchain]
  · intro henv
    rw [update_resource_strict_fail id {} flaskEnv store r hr henv]
    exact ⟨rfl, rfl⟩

theorem C10_witness :
    (update_resource 1 {} none true sampleStore).2.2 = some { objectID := 1 } ∧
    ((none : Option String) ≠ some "development" →
      (update_resource 1 {} none true sampleStore).1 = Response.error500 ∧
      (update_resource 1 {} none true sampleStore).2.1 = sampleStore) :=
  C10_empty_update_still_syncs 1 none true sampleStore sampleResource (by decide)

theorem find?_replaceResource {l : List Resource} {rid : Nat} {r r' : Resource}
    (hr : l.find? (fun x => x.id == rid) = some r) (hid : r'.id = rid) :
    (replaceResource l rid r').find? (fun x => x.id == rid) = some r' := by
  unfold replaceResource
  exact find?_map_ite hr (by simp [hid])

theorem findVote_replaceVote {votes : List VoteInformation} {key : String} {rid : Nat}
    {vi w : VoteInformation} (hf : findVote votes key rid = some vi)
    (hwk : (w.voter_apikey == key && w.resource_id == rid) = true) :
    findVote (replaceVote votes key rid w) key rid = some w := by
  unfold findVote at hf ⊢
  unfold replaceVote
  exact find?_map_ite hf hwk

theorem findVote_append {votes : List VoteInformation} {key : String} {rid : Nat}
    {w : VoteInformation} (hf : findVote votes key rid = none)
    (hwk : (w.voter_apikey == key && w.resource_id == rid) = true) :
    findVote (votes ++ [w]) key rid = some w := by
  unfold findVote at hf ⊢
  exact find?_append_none hf hwk

theorem counterOf_of_find {store : Store} {rid : Nat} {r : Resource} (dir : String)
    (hr : store.resources.find? (fun x => x.id == rid) = some r) :
    counterOf store rid dir = if dir == "upvote" then r.upvotes else r.downvotes := by
  unfold counterOf
  rw [hr]

/-- C1: the vote operation implements exactly the three-state transition table
of the spec — first-ever vote creates the ledger row in the requested
direction and increments that counter; a row in state `NONE` moves to the
requested direction with that counter incremented; casting the current
direction toggles the row off and decrements that counter; casting the
opposite direction decrements the old counter, increments the new one and
flips the row. -/
theorem C1_vote_state_machine (store : Store) (id : Nat) (key d : String)
    (r : Resource) (hd : d = "upvote" ∨ d = "downvote")
    (hr : store.resources.find? (fun x => x.id == id) = some r) :
    (findVote store.votes key id = none →
      findVote (change_votes id d key store).2.votes key id
        = some { voter_apikey := key, resource_id := r.id, current_direction := some d } ∧
      counterOf (change_votes id d key store).2 id d = counterOf store id d + 1 ∧
      counterOf (change_votes id d key store).2 id (opp d) = counterOf store id (opp d)) ∧
    (∀ vi, findVote store.votes key id = some vi →
      (vi.current_direction = none →
        findVote (change_votes id d key store).2.votes key id
          = some { vi with current_direction := some d } ∧
        counterOf (change_votes id d key store).2 id d = counterOf store id d + 1 ∧
        counterOf (change_votes id d key store).2 id (opp d) = counterOf store id (opp d)) ∧
      (vi.current_direction = some d →
        findVote (change_votes id d key store).2.votes key id
          = some { vi with current_direction := none } ∧
        counterOf (change_votes id d key store).2 id d = counterOf store id d - 1 ∧
        counterOf (change_votes id d key store).2 id (opp d) = counterOf store id (opp d)) ∧
      (vi.current_direction = some (opp d) →
        findVote (change_votes id d key store).2.votes key id
          = some { vi with current_direction := some d } ∧
        counterOf (change_votes id d key store).2 id d = counterOf store id d + 1 ∧
        counterOf (change_votes id d key store).2 id (opp d)
          = counterOf store id (opp d) - 1)) := by
  rw [change_votes_eq_update_votes hd]
  have hrid : r.id = id := by simpa using List.find?_some hr
  obtain ⟨hC0, hCS⟩ := update_votes_cases id key d hd store r hr
  have hoppne : opp d ≠ d := by rcases hd with rfl | rfl <;> decide
  constructor
  · intro hnone
    rw [hC0 hnone]
    refine ⟨findVote_append hnone (by simp [hrid]), ?_, ?_⟩
    · rw [counterOf_of_find d (find?_replaceResource hr (by rw [bumpCounter_id, hrid])),
          counterOf_of_find d hr]
      rcases hd with rfl | rfl
      · simp [bumpCounter_up]
      · simp [bumpCounter_down]
    · rw [counterOf_of_find (opp d) (find?_replaceResource hr (by rw [bumpCounter_id, hrid])),
          counterOf_of_find (opp d) hr]
      rcases hd with rfl | rfl
      · simp [bumpCounter_up, opp]
      · simp [bumpCounter_down, opp]
  · intro vi hvi
    have hkvi : (vi.voter_apikey == key && vi.resource_id == id) = true := by
      unfold findVote at hvi
      have h := List.find?_some hvi
      exact h
    obtain ⟨hT, hF, hN⟩ := hCS vi hvi
    refine ⟨?_, ?_, ?_⟩
    · intro hcur
      rw [hN (by simp [hcur]) (by simp [hcur])]
      refine ⟨findVote_replaceVote hvi (by simpa using hkvi), ?_, ?_⟩
      · rw [counterOf_of_find d (find?_replaceResource hr (by rw [bumpCounter_id, hrid])),
            counterOf_of_find d hr]
        rcases hd with rfl | rfl
        · simp [bumpCounter_up]
        · simp [bumpCounter_down]
      · rw [counterOf_of_find (opp d) (find?_replaceResource hr (by rw [bumpCounter_id, hrid])),
            counterOf_of_find (opp d) hr]
        rcases hd with rfl | rfl
        · simp [bumpCounter_up, opp]
        · simp [bumpCounter_down, opp]
    · intro hcur
      rw [hT hcur]
      refine ⟨findVote_replaceVote hvi (by simpa using hkvi), ?_, ?_⟩
      · rw [counterOf_of_find d (find?_replaceResource hr (by rw [bumpCounter_id, hrid])),
            counterOf_of_find d hr]
        rcases hd with rfl | rfl
        · simp [bumpCounter_up]
          omega
        · simp [bumpCounter_down]
          omega
      · rw [counterOf_of_find (opp d) (find?_replaceResource hr (by rw [bumpCounter_id, hrid])),
            counterOf_of_find (opp d) hr]
        rcases hd with rfl | rfl
        · simp [bumpCounter_up, opp]
        · simp [bumpCounter_down, opp]
    · intro hcur
      rw [hF hcur]
      refine ⟨findVote_replaceVote hvi (by simpa using hkvi), ?_, ?_⟩
      · rw [counterOf_of_find d
              (find?_replaceResource hr (by rw [bumpCounter_id, bumpCounter_id, hrid])),
            counterOf_of_find d hr]
        rcases hd with rfl | rfl
        · rw [show opp "upvote" = "downvote" from rfl, bumpCounter_down, bumpCounter_up]
          simp
        · rw [show opp "downvote" = "upvote" from rfl, bumpCounter_up, bumpCounter_down]
          simp
      · rw [counterOf_of_find (opp d)
              (find?_replaceResource hr (by rw [bumpCounter_id, bumpCounter_id, hrid])),
            counterOf_of_find (opp d) hr]
        rcases hd with rfl | rfl
        · rw [show opp "upvote" = "downvote" from rfl, bumpCounter_down, bumpCounter_up]
          simp
          omega
        · rw [show opp "downvote" = "upvote" from rfl, bumpCounter_up, bumpCounter_down]
          simp
          omega

theorem C1_witness :
    findVote (change_votes 1 "upvote" "A" sampleStore).2.votes "A" 1
      = some { voter_apikey := "A", resource_id := sampleResource.id,
               current_direction := some "upvote" } ∧
    counterOf (change_votes 1 "upvote" "A" sampleStore).2 1 "upvote"
      = counterOf sampleStore 1 "upvote" + 1 ∧
    counterOf (change_votes 1 "upvote" "A" sampleStore).2 1 (opp "upvote")
      = counterOf sampleStore 1 (opp "upvote") :=
  (C1_vote_state_machine sampleStore 1 "A" "upvote" sampleResource (Or.inl rfl)
    (by decide)).1 (by decide)

/-- A cast on a voter whose ledger row is absent or in state `NONE` leaves the
row active in the requested direction with that counter bumped. -/
theorem cast_creates_or_activates (store : Store) (id : Nat) (key d : String)
    (r : Resource) (hd : d = "upvote" ∨ d = "downvote")
    (hr : store.resources.find? (fun x => x.id == id) = some r)
    (hstart : findVote store.votes key id = none ∨
      ∃ vi, findVote store.votes key id = some vi ∧ vi.current_direction = none) :
    ∃ vi1, (update_votes id (d ++ "s") key store).2.resources.find? (fun x => x.id == id)
        = some (bumpCounter r d 1) ∧
      findVote (update_votes id (d ++ "s") key store).2.votes key id = some vi1 ∧
      vi1.current_direction = some d ∧ vi1.resource_id = id ∧ vi1.voter_apikey = key := by
  have hrid : r.id = id := by simpa using List.find?_some hr
  obtain ⟨hC0, hCS⟩ := update_votes_cases id key d hd store r hr
  rcases hstart with hvi | ⟨vi, hvi, hvicur⟩
  · rw [hC0 hvi]
    exact ⟨{ voter_apikey := key, resource_id := r.id, current_direction := some d },
      find?_replaceResource hr (by rw [bumpCounter_id, hrid]),
      findVote_append hvi (by simp [hrid]), rfl, hrid, rfl⟩
  · have hkvi : (vi.voter_apikey == key && vi.resource_id == id) = true := by
      unfold findVote at hvi
      have h := List.find?_some hvi
      exact h
    simp only [Bool.and_eq_true, beq_iff_eq] at hkvi
    obtain ⟨_, _, hN⟩ := hCS vi hvi
    rw [hN (by simp [hvicur]) (by simp [hvicur])]
    exact ⟨{ vi with current_direction := some d },
      find?_replaceResource hr (by rw [bumpCounter_id, hrid]),
      findVote_replaceVote hvi (by simp [hkvi.1, hkvi.2]), rfl, hkvi.2, hkvi.1⟩

/-- A cast in the row's current direction toggles it off and decrements the
counter. -/
theorem cast_toggles_off (store : Store) (id : Nat) (key d : String)
    (r : Resource) (vi : VoteInformation) (hd : d = "upvote" ∨ d = "downvote")
    (hr : store.resources.find? (fun x => x.id == id) = some r)
    (hvi : findVote store.votes key id = some vi)
    (hcur : vi.current_direction = some d) :
    (update_votes id (d ++ "s") key store).2.resources.find? (fun x => x.id == id)
        = some (bumpCounter r d (-1)) ∧
    findVote (update_votes id (d ++ "s") key store).2.votes key id
        = some { vi with current_direction := none } := by
  have hrid : r.id = id := by simpa using List.find?_some hr
  have hkvi : (vi.voter_apikey == key && vi.resource_id == id) = true := by
    unfold findVote at hvi
    have h := List.find?_some hvi
    exact h
  simp only [Bool.and_eq_true, beq_iff_eq] at hkvi
  obtain ⟨_, hCS⟩ := update_votes_cases id key d hd store r hr
  obtain ⟨hT, _, _⟩ := hCS vi hvi
  rw [hT hcur]
  exact ⟨find?_replaceResource hr (by rw [bumpCounter_id, hrid]),
    findVote_replaceVote hvi (by simp [hkvi.1, hkvi.2])⟩

/-- C7 (amended): starting from any state in which the voter has no ledger row
for the resource, or a row in state `NONE`, casting the same direction twice
returns the row to `NONE` and leaves both counters unchanged.  (From state
`d` the pair of casts ends in state `d`, and from the opposite state it nets a
decrement of the opposite counter, so the unrestricted claim fails; see the
counterexample.) -/
theorem C7_double_cast_amended (store : Store) (id : Nat) (key d : String)
    (r : Resource) (hd : d = "upvote" ∨ d = "downvote")
    (hr : store.resources.find? (fun x => x.id == id) = some r)
    (hstart : findVote store.votes key id = none ∨
      ∃ vi, findVote store.votes key id = some vi ∧ vi.current_direction = none) :
    (∃ vi', findVote (change_votes id d key (change_votes id d key store).2).2.votes key id
        = some vi' ∧ vi'.current_direction = none) ∧
    counterOf (change_votes id d key (change_votes id d key store).2).2 id "upvote"
      = counterOf store id "upvote" ∧
    counterOf (change_votes id d key (change_votes id d key store).2).2 id "downvote"
      = counterOf store id "downvote" := by
  simp only [change_votes_eq_update_votes hd]
  obtain ⟨vi1, hfr1, hfv1, hcur1, _, _⟩ :=
    cast_creates_or_activates store id key d r hd hr hstart
  obtain ⟨hfr2, hfv2⟩ :=
    cast_toggles_off (update_votes id (d ++ "s") key store).2 id key d
      (bumpCounter r d 1) vi1 hd hfr1 hfv1 hcur1
  refine ⟨⟨{ vi1 with current_direction := none }, hfv2, rfl⟩, ?_, ?_⟩
  · rw [counterOf_of_find "upvote" hfr2, counterOf_of_find "upvote" hr]
    rcases hd with rfl | rfl
    · rw [bumpCounter_up, bumpCounter_up]
      simp
    · rw [bumpCounter_down, bumpCounter_down]
      simp
  · rw [counterOf_of_find "downvote" hfr2, counterOf_of_find "downvote" hr]
    rcases hd with rfl | rfl
    · rw [bumpCounter_up, bumpCounter_up]
      simp
    · rw [bumpCounter_down, bumpCounter_down]
      simp

theorem C7_double_cast_amended_witness :
    (∃ vi', findVote (change_votes 1 "upvote" "A"
          (change_votes 1 "upvote" "A" sampleStore).2).2.votes "A" 1
        = some vi' ∧ vi'.current_direction = none) ∧
    counterOf (change_votes 1 "upvote" "A"
        (change_votes 1 "upvote" "A" sampleStore).2).2 1 "upvote"
      = counterOf sampleStore 1 "upvote" ∧
    counterOf (change_votes 1 "upvote" "A"
        (change_votes 1 "upvote" "A" sampleStore).2).2 1 "downvote"
      = counterOf sampleStore 1 "downvote" :=
  C7_double_cast_amended sampleStore 1 "A" "upvote" sampleResource (Or.inl rfl)
    (by decide) (Or.inl (by decide))

/-- C7 counterexample: both parts of the unrestricted claim fail on reachable
states.  After voter A reaches state `DOWNVOTED` on resource 1 (downvotes = 1),
casting `upvote` twice ends with downvotes = 0, so the counters are not
restored; and after A reaches state `UPVOTED`, casting `upvote` twice leaves
the ledger row in state `upvote`, not `NONE`. -/
theorem C7_counterexample :
    (counterOf (change_votes 1 "downvote" "A" sampleStore).2 1 "downvote" = 1 ∧
     counterOf (change_votes 1 "upvote" "A" (change_votes 1 "upvote" "A"
         (change_votes 1 "downvote" "A" sampleStore).2).2).2 1 "downvote" = 0) ∧
    (findVote (change_votes 1 "upvote" "A" (change_votes 1 "upvote" "A"
         (change_votes 1 "upvote" "A" sampleStore).2).2).2.votes "A" 1
       = some { voter_apikey := "A", resource_id := 1,
                current_direction := some "upvote" }) := by
  decide

/-! ### Frame lemmas along the apply-sequence, for tag-orphan reasoning -/

theorem stepShape_synced {rid : Nat} {t t' : UpdateState}
    (hs : StepShape rid t t') (h : Synced rid t) : Synced rid t' := by
  obtain ⟨hid, hmem, hsync⟩ := h
  rcases hs with rfl | ⟨hid', _, _, _, hres', _⟩
  · exact ⟨hid, hmem, hsync⟩
  · refine ⟨by rw [hid', hid], ?_, ?_⟩
    · rw [hres']
      exact mem_replaceResource_self hmem hid
    · intro x hx hxid
      rw [hres'] at hx
      exact replaceResource_sync hx hxid

theorem stepShape_usedLanguages {rid : Nat} {t t' : UpdateState}
    (hs : StepShape rid t t') (h : Synced rid t)
    (hl : t'.1.languages = t.1.languages) :
    usedLanguages t'.2.1.resources = usedLanguages t.2.1.resources := by
  rcases hs with rfl | ⟨_, _, _, _, hres', _⟩
  · rfl
  · rw [hres']
    apply usedLanguages_replaceResource
    intro x hx hxid
    rw [h.2.2 x hx hxid, hl]

theorem stepShape_usedCategories {rid : Nat} {t t' : UpdateState}
    (hs : StepShape rid t t') (h : Synced rid t)
    (hc : t'.1.category = t.1.category) :
    usedCategories t'.2.1.resources = usedCategories t.2.1.resources := by
  rcases hs with rfl | ⟨_, _, _, _, hres', _⟩
  · rfl
  · rw [hres']
    apply usedCategories_replaceResource
    intro x hx hxid
    rw [h.2.2 x hx hxid, hc]

theorem applyName_frames (json : UpdateJson) (rid : Nat) (t : UpdateState) :
    (applyName json rid t).2.1.languages = t.2.1.languages ∧
    (applyName json rid t).2.1.categories = t.2.1.categories ∧
    (applyName json rid t).1.languages = t.1.languages ∧
    (applyName json rid t).1.category = t.1.category := by
  obtain ⟨r, s, p⟩ := t
  unfold applyName
  cases truthyStr json.name <;> exact ⟨rfl, rfl, rfl, rfl⟩

theorem applyUrl_frames (json : UpdateJson) (rid : Nat) (t : UpdateState) :
    (applyUrl json rid t).2.1.languages = t.2.1.languages ∧
    (applyUrl json rid t).2.1.categories = t.2.1.categories ∧
    (applyUrl json rid t).1.languages = t.1.languages ∧
    (applyUrl json rid t).1.category = t.1.category := by
  obtain ⟨r, s, p⟩ := t
  unfold applyUrl
  cases truthyStr json.url <;> exact ⟨rfl, rfl, rfl, rfl⟩

theorem applyFree_frames (json : UpdateJson) (rid : Nat) (t : UpdateState) :
    (applyFree json rid t).2.1.languages = t.2.1.languages ∧
    (applyFree json rid t).2.1.categories = t.2.1.categories ∧
    (applyFree json rid t).1.languages = t.1.languages ∧
    (applyFree json rid t).1.category = t.1.category := by
  obtain ⟨r, s, p⟩ := t
  unfold applyFree
  cases json.free <;> exact ⟨rfl, rfl, rfl, rfl⟩

theorem applyNotes_frames (json : UpdateJson) (rid : Nat) (t : UpdateState) :
    (applyNotes json rid t).2.1.languages = t.2.1.languages ∧
    (applyNotes json rid t).2.1.categories = t.2.1.categories ∧
    (applyNotes json rid t).1.languages = t.1.languages ∧
    (applyNotes json rid t).1.category = t.1.category := by
  obtain ⟨r, s, p⟩ := t
  unfold applyNotes
  cases json.notes <;> exact ⟨rfl, rfl, rfl, rfl⟩

theorem applyCategory_frames_lang (json : UpdateJson) (rid : Nat) (t : UpdateState) :
    (applyCategory json rid t).2.1.languages = t.2.1.languages ∧
    (applyCategory json rid t).1.languages = t.1.languages := by
  obtain ⟨r, s, p⟩ := t
  unfold applyCategory
  cases truthyStr json.category <;> exact ⟨rfl, rfl⟩

theorem applyLanguages_frames_cat (json : UpdateJson) (rid : Nat) (t : UpdateState) :
    (applyLanguages json rid t).2.1.categories = t.2.1.categories ∧
    (applyLanguages json rid t).1.category = t.1.category := by
  obtain ⟨r, s, p⟩ := t
  unfold applyLanguages
  cases jGet json.languages <;> exact ⟨rfl, rfl⟩

theorem applyLanguages_mem (json : UpdateJson) (rid : Nat) (t : UpdateState)
    (hid : t.1.id = rid) (hmem : t.1 ∈ t.2.1.resources) :
    (applyLanguages json rid t).1.id = rid ∧
    (applyLanguages json rid t).1 ∈ (applyLanguages json rid t).2.1.resources := by
  rcases applyLanguages_stepShape json rid t with heq | ⟨hid', _, _, _, hres', _⟩
  · rw [heq]
    exact ⟨hid, hmem⟩
  · refine ⟨by rw [hid', hid], ?_⟩
    rw [hres']
    exact mem_replaceResource_self hmem hid

/-- Through the scalar steps after the category branch: tag entity lists and
the tag-usage scans are unchanged. -/
theorem chainAfterCategory_frames (json : UpdateJson) (rid : Nat) (t : UpdateState)
    (h : Synced rid t) :
    (chainAfterCategory json rid t).2.1.languages = t.2.1.languages ∧
    (chainAfterCategory json rid t).2.1.categories = t.2.1.categories ∧
    usedLanguages (chainAfterCategory json rid t).2.1.resources
      = usedLanguages t.2.1.resources ∧
    usedCategories (chainAfterCategory json rid t).2.1.resources
      = usedCategories t.2.1.resources := by
  obtain ⟨fn1, fn2, fn3, fn4⟩ := applyName_frames json rid t
  have sn := applyName_stepShape json rid t
  have synN := stepShape_synced sn h
  have un := stepShape_usedLanguages sn h fn3
  have cn := stepShape_usedCategories sn h fn4
  obtain ⟨fu1, fu2, fu3, fu4⟩ := applyUrl_frames json rid (applyName json rid t)
  have su := applyUrl_stepShape json rid (applyName json rid t)
  have synU := stepShape_synced su synN
  have uu := stepShape_usedLanguages su synN fu3
  have cu := stepShape_usedCategories su synN fu4
  obtain ⟨ff1, ff2, ff3, ff4⟩ :=
    applyFree_frames json rid (applyUrl json rid (applyName json rid t))
  have sf := applyFree_stepShape json rid (applyUrl json rid (applyName json rid t))
  have synF := stepShape_synced sf synU
  have uf := stepShape_usedLanguages sf synU ff3
  have cf := stepShape_usedCategories sf synU ff4
  obtain ⟨fo1, fo2, fo3, fo4⟩ := applyNotes_frames json rid
    (applyFree json rid (applyUrl json rid (applyName json rid t)))
  have so := applyNotes_stepShape json rid
    (applyFree json rid (applyUrl json rid (applyName json rid t)))
  have uo := stepShape_usedLanguages so synF fo3
  have co := stepShape_usedCategories so synF fo4
  refine ⟨?_, ?_, ?_, ?_⟩
  · exact fo1.trans (ff1.trans (fu1.trans fn1))
  · exact fo2.trans (ff2.trans (fu2.trans fn2))
  · exact uo.trans (uf.trans (uu.trans un))
  · exact co.trans (cf.trans (cu.trans cn))

/-- Through everything after the languages branch: the language entity list
and the language-usage scan are unchanged. -/
theorem chainAfterLanguages_frames (json : UpdateJson) (rid : Nat) (t : UpdateState)
    (h : Synced rid t) :
    (chainAfterLanguages json rid t).2.1.languages = t.2.1.languages ∧
    usedLanguages (chainAfterLanguages json rid t).2.1.resources
      = usedLanguages t.2.1.resources := by
  obtain ⟨fc1, fc2⟩ := applyCategory_frames_lang json rid t
  have sc := applyCategory_stepShape json rid t
  have synC := stepShape_synced sc h
  have uc := stepShape_usedLanguages sc h fc2
  obtain ⟨g1, _, g3, _⟩ := chainAfterCategory_frames json rid (applyCategory json rid t) synC
  exact ⟨g1.trans fc1, g3.trans uc⟩

theorem applyLanguages_applied (json : UpdateJson) (rid : Nat) (r : Resource)
    (s : Store) (p : IndexObject) {L : List String}
    (h : jGet json.languages = some L) :
    applyLanguages json rid (r, s, p) =
      ({ r with languages := L },
       { s with
           resources := replaceResource s.resources rid { r with languages := L },
           languages := (insertNew s.languages L).filter
             (fun n => !(r.languages.contains n &&
               !(usedLanguages (replaceResource s.resources rid
                   { r with languages := L })).contains n)) },
       { p with languages := some L }) := by
  unfold applyLanguages
  rw [h]

theorem applyCategory_applied (json : UpdateJson) (rid : Nat) (r : Resource)
    (s : Store) (p : IndexObject) {c : String}
    (h : truthyStr json.category = some c) :
    applyCategory json rid (r, s, p) =
      ({ r with category := c },
       { s with
           resources := replaceResource s.resources rid { r with category := c },
           categories := (insertNew s.categories [c]).filter
             (fun n => !(n == r.category &&
               !(usedCategories (replaceResource s.resources rid
                   { r with category := c })).contains n)) },
       { p with category := some c }) := by
  unfold applyCategory
  rw [h]

theorem applyCategory_applied' (json : UpdateJson) (rid : Nat) (t : UpdateState)
    {c : String} (h : truthyStr json.category = some c) :
    applyCategory json rid t =
      ({ t.1 with category := c },
       { t.2.1 with
           resources := replaceResource t.2.1.resources rid { t.1 with category := c },
           categories := (insertNew t.2.1.categories [c]).filter
             (fun n => !(n == t.1.category &&
               !(usedCategories (replaceResource t.2.1.resources rid
                   { t.1 with category := c })).contains n)) },
       { t.2.2 with category := some c }) := by
  obtain ⟨r, s, p⟩ := t
  exact applyCategory_applied json rid r s p h

/-- C3: when `update_resource` replaces a resource's languages (respectively
its category), every language previously attached to it (respectively the old
category) that the post-replacement full scan finds on no resource is deleted
from the datastore, and every such tag still referenced by some resource is
retained. -/
theorem C3_orphan_cleanup (store : Store) (id : Nat) (json : UpdateJson)
    (flaskEnv : Option String) (r : Resource)
    (hr : store.resources.find? (fun x => x.id == id) = some r) :
    (∀ L, jGet json.languages = some L →
      ∀ lang ∈ r.languages,
        (lang ∉ usedLanguages (update_resource id json flaskEnv false store).2.1.resources →
          lang ∉ (update_resource id json flaskEnv false store).2.1.languages) ∧
        (lang ∈ usedLanguages (update_resource id json flaskEnv false store).2.1.resources →
          lang ∈ store.languages →
          lang ∈ (update_resource id json flaskEnv false store).2.1.languages)) ∧
    (∀ c, truthyStr json.category = some c →
      (r.category ∉ usedCategories
          (update_resource id json flaskEnv false store).2.1.resources →
        r.category ∉ (update_resource id json flaskEnv false store).2.1.categories) ∧
      (r.category ∈ usedCategories
          (update_resource id json flaskEnv false store).2.1.resources →
        r.category ∈ store.categories →
        r.category ∈ (update_resource id json flaskEnv false store).2.1.categories)) := by
  rw [update_resource_ok id json flaskEnv store r hr]
  have hrid : r.id = id := by simpa using List.find?_some hr
  have hmem := List.mem_of_find?_eq_some hr
  constructor
  · intro L hL lang hlang
    show (lang ∉ usedLanguages (updateChain json id
        (r, store, { objectID := id })).2.1.resources → _) ∧ _
    rw [show updateChain json id (r, store, { objectID := id })
        = chainAfterLanguages json id (applyLanguages json id
            (r, store, { objectID := id })) from rfl]
    rw [applyLanguages_applied json id r store _ hL]
    have hsyn : Synced id
        ({ r with languages := L },
         { store with
             resources := replaceResource store.resources id { r with languages := L },
             languages := (insertNew store.languages L).filter
               (fun n => !(r.languages.contains n &&
                 !(usedLanguages (replaceResource store.resources id
                     { r with languages := L })).contains n)) },
         { (⟨id, none, none, none, none, none, none⟩ : IndexObject) with
             languages := some L }) := by
      refine ⟨hrid, mem_replaceResource_self hmem hrid, ?_⟩
      intro x hx hxid
      exact replaceResource_sync hx hxid
    obtain ⟨hL1, hU1⟩ := chainAfterLanguages_frames json id _ hsyn
    rw [hL1, hU1]
    have hcont : r.languages.contains lang = true := by simpa using hlang
    constructor
    · intro hnot hin
      rcases List.mem_filter.mp hin with ⟨_, hpred⟩
      have hucont : (usedLanguages (replaceResource store.resources id
          { r with languages := L })).contains lang = false := by simpa using hnot
      rw [hcont, hucont] at hpred
      simp at hpred
    · intro hin hstore
      apply List.mem_filter.mpr
      refine ⟨mem_insertNew.mpr (Or.inl hstore), ?_⟩
      have hucont : (usedLanguages (replaceResource store.resources id
          { r with languages := L })).contains lang = true := by simpa using hin
      rw [hucont]
      simp
  · intro c hc
    show (r.category ∉ usedCategories (updateChain json id
        (r, store, { objectID := id })).2.1.resources → _) ∧ _
    rw [show updateChain json id (r, store, { objectID := id })
        = chainAfterCategory json id (applyCategory json id (applyLanguages json id
            (r, store, { objectID := id }))) from rfl]
    obtain ⟨hid1, hmem1⟩ :=
      applyLanguages_mem json id (r, store, { objectID := id }) hrid hmem
    obtain ⟨hcats1, hrcat1⟩ :=
      applyLanguages_frames_cat json id (r, store, { objectID := id })
    rw [applyCategory_applied' json id _ hc]
    have hsyn2 : Synced id
        ({ (applyLanguages json id (r, store, { objectID := id })).1 with category := c },
         { (applyLanguages json id (r, store, { objectID := id })).2.1 with
             resources := replaceResource
               (applyLanguages json id (r, store, { objectID := id })).2.1.resources id
               { (applyLanguages json id (r, store, { objectID := id })).1 with
                   category := c },
             categories := (insertNew
               (applyLanguages json id (r, store, { objectID := id })).2.1.categories
               [c]).filter
               (fun n => !(n ==
                   (applyLanguages json id (r, store, { objectID := id })).1.category &&
                 !(usedCategories (replaceResource
                     (applyLanguages json id (r, store, { objectID := id })).2.1.resources
                     id
                     { (applyLanguages json id (r, store, { objectID := id })).1 with
                         category := c })).contains n)) },
         { (applyLanguages json id (r, store, { objectID := id })).2.2 with
             category := some c }) := by
      refine ⟨hid1, mem_replaceResource_self hmem1 hid1, ?_⟩
      intro x hx hxid
      exact replaceResource_sync hx hxid
    obtain ⟨_, hC2, _, hUC2⟩ := chainAfterCategory_frames json id _ hsyn2
    rw [hC2, hUC2]
    rw [hcats1, hrcat1]
    constructor
    · intro hnot hin
      rcases List.mem_filter.mp hin with ⟨_, hpred⟩
      have hucont : (usedCategories (replaceResource
          (applyLanguages json id (r, store, { objectID := id })).2.1.resources id
          { (applyLanguages json id (r, store, { objectID := id })).1 with
              category := c })).contains r.category = false := by simpa using hnot
      rw [hucont] at hpred
      simp at hpred
    · intro hin hstore
      apply List.mem_filter.mpr
      refine ⟨mem_insertNew.mpr (Or.inl hstore), ?_⟩
      have hucont : (usedCategories (replaceResource
          (applyLanguages json id (r, store, { objectID := id })).2.1.resources id
          { (applyLanguages json id (r, store, { objectID := id })).1 with
              category := c })).contains r.category = true := by simpa using hin
      rw [hucont]
      simp

theorem C3_witness :
    (("Python" : String) ∉ usedLanguages
        (update_resource 1 { languages := some (some ["Rust"]) }
          none false sampleStore).2.1.resources →
      ("Python" : String) ∉ (update_resource 1 { languages := some (some ["Rust"]) }
          none false sampleStore).2.1.languages) ∧
    (("Python" : String) ∈ usedLanguages
        (update_resource 1 { languages := some (some ["Rust"]) }
          none false sampleStore).2.1.resources →
      ("Python" : String) ∈ sampleStore.languages →
      ("Python" : String) ∈ (update_resource 1 { languages := some (some ["Rust"]) }
          none false sampleStore).2.1.languages) :=
  (C3_orphan_cleanup sampleStore 1 { languages := some (some ["Rust"]) } none
      sampleResource (by decide)).1 ["Rust"] (by decide) "Python" (by decide)

/-! ### Computation of the staged resource and the index patch -/

/-- The staged resource applies exactly the fields the source's presence and
truthiness rules select, and the index patch holds exactly those fields. -/
theorem updateChain_r_p (json : UpdateJson) (id : Nat) (r : Resource) (s : Store) :
    (updateChain json id (r, s, { objectID := id })).1
      = { r with
          languages := (jGet json.languages).getD r.languages,
          category := (truthyStr json.category).getD r.category,
          name := (truthyStr json.name).getD r.name,
          url := (truthyStr json.url).getD r.url,
          free := (json.free.map ensure_bool).getD r.free,
          notes := json.notes.getD r.notes } ∧
    (updateChain json id (r, s, { objectID := id })).2.2
      = { objectID := id,
          languages := jGet json.languages,
          category := truthyStr json.category,
          name := truthyStr json.name,
          url := truthyStr json.url,
          free := json.free.map ensure_bool,
          notes := json.notes } := by
  unfold updateChain chainAfterLanguages chainAfterCategory
  cases h1 : jGet json.languages <;> cases h2 : truthyStr json.category <;>
    cases h3 : truthyStr json.name <;> cases h4 : truthyStr json.url <;>
      cases h5 : json.free <;> cases h6 : json.notes <;>
        simp [applyLanguages, applyCategory, applyName, applyUrl, applyFree,
          applyNotes, h1, h2, h3, h4, h5, h6]

theorem stepShape_id {rid : Nat} {t t' : UpdateState}
    (hs : StepShape rid t t') (hid : t.1.id = rid) : t'.1.id = rid := by
  rcases hs with rfl | ⟨hid', _, _, _, _, _⟩
  · exact hid
  · rw [hid']
    exact hid

theorem stepShape_find {rid : Nat} {t t' : UpdateState}
    (hs : StepShape rid t t') (hid : t.1.id = rid)
    (hf : t.2.1.resources.find? (fun x => x.id == rid) = some t.1) :
    t'.2.1.resources.find? (fun x => x.id == rid) = some t'.1 := by
  rcases hs with rfl | ⟨hid', _, _, _, hres', _⟩
  · exact hf
  · rw [hres']
    exact find?_replaceResource hf (by rw [hid', hid])

/-- The committed resource list yields the staged resource back under lookup
by the route id. -/
theorem updateChain_find_self (json : UpdateJson) (rid : Nat) (t : UpdateState)
    (hid : t.1.id = rid)
    (hf : t.2.1.resources.find? (fun x => x.id == rid) = some t.1) :
    (updateChain json rid t).2.1.resources.find? (fun x => x.id == rid)
      = some (updateChain json rid t).1 := by
  unfold updateChain chainAfterLanguages chainAfterCategory
  have s1 := applyLanguages_stepShape json rid t
  have hid1 := stepShape_id s1 hid
  have hf1 := stepShape_find s1 hid hf
  have s2 := applyCategory_stepShape json rid (applyLanguages json rid t)
  have hid2 := stepShape_id s2 hid1
  have hf2 := stepShape_find s2 hid1 hf1
  have s3 := applyName_stepShape json rid
    (applyCategory json rid (applyLanguages json rid t))
  have hid3 := stepShape_id s3 hid2
  have hf3 := stepShape_find s3 hid2 hf2
  have s4 := applyUrl_stepShape json rid
    (applyName json rid (applyCategory json rid (applyLanguages json rid t)))
  have hid4 := stepShape_id s4 hid3
  have hf4 := stepShape_find s4 hid3 hf3
  have s5 := applyFree_stepShape json rid (applyUrl json rid
    (applyName json rid (applyCategory json rid (applyLanguages json rid t))))
  have hid5 := stepShape_id s5 hid4
  have hf5 := stepShape_find s5 hid4 hf4
  have s6 := applyNotes_stepShape json rid (applyFree json rid (applyUrl json rid
    (applyName json rid (applyCategory json rid (applyLanguages json rid t)))))
  exact stepShape_find s6 hid5 hf5

/-- C6: field-application rules of `update_resource` — `languages` is applied
iff present with a non-null value, `category`/`name`/`url` iff present with a
truthy (non-null, non-empty) value, `free` and `notes` whenever the key is
present (even false/empty/null, `free` through the boolean coercion), and
every unapplied field keeps its prior value, both in the returned resource and
in the committed store. -/
theorem C6_field_application_rules (store : Store) (id : Nat) (json : UpdateJson)
    (flaskEnv : Option String) (r : Resource)
    (hr : store.resources.find? (fun x => x.id == id) = some r) :
    (update_resource id json flaskEnv false store).1
      = Response.ok { r with
          languages := (jGet json.languages).getD r.languages,
          category := (truthyStr json.category).getD r.category,
          name := (truthyStr json.name).getD r.name,
          url := (truthyStr json.url).getD r.url,
          free := (json.free.map ensure_bool).getD r.free,
          notes := json.notes.getD r.notes } ∧
    (update_resource id json flaskEnv false store).2.1.resources.find?
        (fun x => x.id == id)
      = some { r with
          languages := (jGet json.languages).getD r.languages,
          category := (truthyStr json.category).getD r.category,
          name := (truthyStr json.name).getD r.name,
          url := (truthyStr json.url).getD r.url,
          free := (json.free.map ensure_bool).getD r.free,
          notes := json.notes.getD r.notes } := by
  rw [update_resource_ok id json flaskEnv store r hr]
  have hrid : r.id = id := by simpa using List.find?_some hr
  obtain ⟨h1, _⟩ := updateChain_r_p json id r store
  constructor
  · exact congrArg Response.ok h1
  · rw [updateChain_find_self json id (r, store, { objectID := id }) hrid hr, h1]

theorem C6_witness :
    (update_resource 1 { notes := some none, url := some (some "") }
        none false sampleStore).1
      = Response.ok { sampleResource with
          languages := (jGet ({ notes := some none, url := some (some "") }
            : UpdateJson).languages).getD sampleResource.languages,
          category := (truthyStr ({ notes := some none, url := some (some "") }
            : UpdateJson).category).getD sampleResource.category,
          name := (truthyStr ({ notes := some none, url := some (some "") }
            : UpdateJson).name).getD sampleResource.name,
          url := (truthyStr ({ notes := some none, url := some (some "") }
            : UpdateJson).url).getD sampleResource.url,
          free := (({ notes := some none, url := some (some "") }
            : UpdateJson).free.map ensure_bool).getD sampleResource.free,
          notes := ({ notes := some none, url := some (some "") }
            : UpdateJson).notes.getD sampleResource.notes } ∧
    (update_resource 1 { notes := some none, url := some (some "") }
        none false sampleStore).2.1.resources.find? (fun x => x.id == 1)
      = some { sampleResource with
          languages := (jGet ({ notes := some none, url := some (some "") }
            : UpdateJson).languages).getD sampleResource.languages,
          category := (truthyStr ({ notes := some none, url := some (some "") }
            : UpdateJson).category).getD sampleResource.category,
          name := (truthyStr ({ notes := some none, url := some (some "") }
            : UpdateJson).name).getD sampleResource.name,
          url := (truthyStr ({ notes := some none, url := some (some "") }
            : UpdateJson).url).getD sampleResource.url,
          free := (({ notes := some none, url := some (some "") }
            : UpdateJson).free.map ensure_bool).getD sampleResource.free,
          notes := ({ notes := some none, url := some (some "") }
            : UpdateJson).notes.getD sampleResource.notes } :=
  C6_field_application_rules sampleStore 1 { notes := some none, url := some (some "") }
    none sampleResource (by decide)

/-- C5: a partial document holding only `name: "X"` updates exactly the name —
the returned and committed resource equal the old resource with only `name`
replaced, and the emitted index patch holds exactly the `objectID` and the
`name`; in general the patch carries precisely the fields the operation
applied and omits the rest. -/
theorem C5_partial_update_isolation (store : Store) (id : Nat)
    (flaskEnv : Option String) (r : Resource)
    (hr : store.resources.find? (fun x => x.id == id) = some r) :
    (update_resource id { name := some (some "X") } flaskEnv false store).1
      = Response.ok { r with name := "X" } ∧
    (update_resource id { name := some (some "X") } flaskEnv false store).2.1.resources.find?
        (fun x => x.id == id) = some { r with name := "X" } ∧
    (update_resource id { name := some (some "X") } flaskEnv false store).2.2
      = some { objectID := id, name := some "X" } ∧
    (∀ json, (update_resource id json flaskEnv false store).2.2
      = some { objectID := id,
               languages := jGet json.languages,
               category := truthyStr json.category,
               name := truthyStr json.name,
               url := truthyStr json.url,
               free := json.free.map ensure_bool,
               notes := json.notes }) := by
  have hrid : r.id = id := by simpa using List.find?_some hr
  refine ⟨?_, ?_, ?_, ?_⟩
  · rw [update_resource_ok id { name := some (some "X") } flaskEnv store r hr]
    exact congrArg Response.ok (updateChain_r_p { name := some (some "X") } id r store).1
  · rw [update_resource_ok id { name := some (some "X") } flaskEnv store r hr]
    rw [updateChain_find_self { name := some (some "X") } id
      (r, store, { objectID := id }) hrid hr]
    exact congrArg some (updateChain_r_p { name := some (some "X") } id r store).1
  · rw [update_resource_ok id { name := some (some "X") } flaskEnv store r hr]
    exact congrArg some (updateChain_r_p { name := some (some "X") } id r store).2
  · intro json
    rw [update_resource_ok id json flaskEnv store r hr]
    exact congrArg some (updateChain_r_p json id r store).2

theorem C5_witness :
    (update_resource 1 { name := some (some "X") } none false sampleStore).1
      = Response.ok { sampleResource with name := "X" } ∧
    (update_resource 1 { name := some (some "X") } none false sampleStore).2.1.resources.find?
        (fun x => x.id == 1) = some { sampleResource with name := "X" } ∧
    (update_resource 1 { name := some (some "X") } none false sampleStore).2.2
      = some { objectID := 1, name := some "X" } ∧
    (∀ json, (update_resource 1 json none false sampleStore).2.2
      = some { objectID := 1,
               languages := jGet json.languages,
               category := truthyStr json.category,
               name := truthyStr json.name,
               url := truthyStr json.url,
               free := json.free.map ensure_bool,
               notes := json.notes }) :=
  C5_partial_update_isolation sampleStore 1 none sampleResource (by decide)

/-! ### Click counter -/

theorem add_click_found (id : Nat) (auth_key : Option String) (store : Store)
    (r : Resource) (hr : store.resources.find? (fun x => x.id == id) = some r) :
    add_click id auth_key store =
      (Response.ok { r with times_clicked := r.times_clicked + 1 },
       { store with resources := replaceResource store.resources id { r with times_clicked := r.times_clicked + 1 } }) := by
  unfold add_click
  rw [hr]

theorem iterClick_key_irrelevant (id : Nat) (k k' : Option String) :
    ∀ (n : Nat) (store : Store), iterClick id k n store = iterClick id k' n store
  | 0, store => rfl
  | n + 1, store => iterClick_key_irrelevant id k k' n (add_click id k store).2

theorem iterClick_spec (id : Nat) (auth_key : Option String) :
    ∀ (n : Nat) (store : Store) (r : Resource),
      store.resources.find? (fun x => x.id == id) = some r →
      (iterClick id auth_key n store).resources.find? (fun x => x.id == id)
          = some { r with times_clicked := r.times_clicked + (n : Int) } ∧
      (iterClick id auth_key n store).votes = store.votes ∧
      (iterClick id auth_key n store).languages = store.languages ∧
      (iterClick id auth_key n store).categories = store.categories
  | 0, store, r, hr => by
    refine ⟨?_, rfl, rfl, rfl⟩
    simpa using hr
  | n + 1, store, r, hr => by
    have hrid : r.id = id := by simpa using List.find?_some hr
    have hstep := add_click_found id auth_key store r hr
    have hr1 : (add_click id auth_key store).2.resources.find? (fun x => x.id == id)
        = some { r with times_clicked := r.times_clicked + 1 } := by
      rw [hstep]
      exact find?_replaceResource hr hrid
    obtain ⟨h1, h2, h3, h4⟩ :=
      iterClick_spec id auth_key n (add_click id auth_key store).2 _ hr1
    have hcast : ({ r with times_clicked := r.times_clicked + 1 } : Resource).times_clicked
        + (n : Int) = r.times_clicked + ((n + 1 : Nat) : Int) := by
      push_cast
      ring
    refine ⟨?_, ?_, ?_, ?_⟩
    · show (iterClick id auth_key n (add_click id auth_key store).2).resources.find?
        (fun x => x.id == id) = _
      rw [h1, hcast]
    · show (iterClick id auth_key n (add_click id auth_key store).2).votes = store.votes
      rw [h2, hstep]
    · show (iterClick id auth_key n (add_click id auth_key store).2).languages
        = store.languages
      rw [h3, hstep]
    · show (iterClick id auth_key n (add_click id auth_key store).2).categories
        = store.categories
      rw [h4, hstep]

/-- C8: `N` sequential clicks on an existing resource raise `times_clicked` by
exactly `N`, change nothing else in the store (the looked-up resource differs
from the old one only in `times_clicked`; ledger, languages and categories are
untouched), and the operation is entirely independent of whether or which API
credential the caller supplies. -/
theorem C8_click_counter (store : Store) (id : Nat) (r : Resource) (n : Nat)
    (auth_key : Option String)
    (hr : store.resources.find? (fun x => x.id == id) = some r) :
    ((iterClick id auth_key n store).resources.find? (fun x => x.id == id)
        = some { r with times_clicked := r.times_clicked + (n : Int) } ∧
     (iterClick id auth_key n store).votes = store.votes ∧
     (iterClick id auth_key n store).languages = store.languages ∧
     (iterClick id auth_key n store).categories = store.categories) ∧
    (∀ auth_key', iterClick id auth_key' n store = iterClick id auth_key n store) ∧
    (∀ auth_key', add_click id auth_key' store = add_click id auth_key store) :=
  ⟨iterClick_spec id auth_key n store r hr,
   fun auth_key' => iterClick_key_irrelevant id auth_key' auth_key n store,
   fun _ => rfl⟩

theorem C8_click_counter_witness :
    ((iterClick 1 none 3 sampleStore).resources.find? (fun x => x.id == 1)
        = some { sampleResource with
            times_clicked := sampleResource.times_clicked + ((3 : Nat) : Int) } ∧
     (iterClick 1 none 3 sampleStore).votes = sampleStore.votes ∧
     (iterClick 1 none 3 sampleStore).languages = sampleStore.languages ∧
     (iterClick 1 none 3 sampleStore).categories = sampleStore.categories) ∧
    (∀ auth_key', iterClick 1 auth_key' 3 sampleStore = iterClick 1 none 3 sampleStore) ∧
    (∀ auth_key', add_click 1 auth_key' sampleStore = add_click 1 none sampleStore) :=
  C8_click_counter sampleStore 1 sampleResource 3 none (by decide)

end ResourcesApi
